import Mathlib

/-!
# Medods auth service: refresh-token rotation

A shallow embedding of `pkg/jwt/tokenManager.go`, `internal/usecase/auth.go`,
`internal/repository/postgres/refreshToken.go` and `pkg/smtp/smtpManager.go`.

Conventions of the embedding

* a Go `string` is a Lean `String` (a sequence of runes);
* a Go `(T, error)` result is `Except Error T`; a lone `error` is `Option Error`
  (`none` is `nil`);
* `uint64` values are `Nat` reduced `% 2 ^ 64` where the Go arithmetic can wrap;
* `time.Time` is an `Int` count of nanoseconds since the Unix epoch, and
  `time.Duration` an `Int` count of nanoseconds;
* calls into libraries outside the repository (`xxhash`, `golang-jwt`, `uuid`,
  `database/sql`, `net/smtp`, `time.Now`) are read from an environment record `Env`;
  the pieces of the Go standard library `fmt`/`strconv` that decide the digest codec and
  the control flow of `jwt.ParseWithClaims` are written out as definitions;
* the table `refresh_sessions` and the record of calls made on the store, the alert sink
  and the token generator live in a `World` that every effectful function threads;
* `slog` calls are not modelled (they change no state the program reads).
-/

namespace Medods

/-! ## Errors -/

/-- Go `error` values that occur in the program. -/
inductive Error where
  /-- `jwt.ErrInvalidToken = errors.New("invalid token")` of `pkg/jwt`. -/
  | ErrInvalidToken
  /-- `jwt.ErrTokenExpired = errors.New("token expired")` of `pkg/jwt`. -/
  | ErrTokenExpired
  /-- `fmt.Errorf(msg)` with no wrapped error. -/
  | errorf (msg : String)
  /-- `fmt.Errorf(msg + ": %w", inner)`. -/
  | wrap (msg : String) (inner : Error)
  /-- An error value produced by a library outside the repository. -/
  | lib (descr : String)
  deriving DecidableEq, Repr

deriving instance DecidableEq for Except

/-! ## `fmt.Sprintf("%x", u)` for a `uint64` -/

/-- The digit table `ldigits = "0123456789abcdefx"` of `fmt/format.go`, indexed. -/
def ldigits (d : Nat) : Char :=
  match d with
  | 0 => '0' | 1 => '1' | 2 => '2' | 3 => '3' | 4 => '4' | 5 => '5' | 6 => '6' | 7 => '7'
  | 8 => '8' | 9 => '9' | 10 => 'a' | 11 => 'b' | 12 => 'c' | 13 => 'd' | 14 => 'e'
  | 15 => 'f' | _ => 'x'

/-- The base-16 loop of `fmt.fmtInteger`: `for u >= 16 { i--; buf[i] = digits[u&0xF]; u >>= 4 }`
followed by `i--; buf[i] = digits[u]`. The buffer is filled right to left, so `buf` is the
part already written. `fuel` bounds the iterations. -/
def fmtIntegerHex : Nat → Nat → List Char → List Char
  | 0, u, buf => ldigits u :: buf
  | fuel + 1, u, buf =>
    if u ≥ 16 then fmtIntegerHex fuel (u / 16) (ldigits (u % 16) :: buf)
    else ldigits u :: buf

/-- The rendering `fmt.Sprintf("%x", u)` of a `uint64`: sixteen iterations cover 64 bits. -/
def SprintfHex (u : Nat) : String :=
  String.mk (fmtIntegerHex 16 u [])

/-! ## `fmt.Sscanf(s, "%x", &v)` for a `*uint64` -/

/-- The table `space` of `fmt/scan.go`. -/
def space : List (Nat × Nat) :=
  [(0x0009, 0x000d), (0x0020, 0x0020), (0x0085, 0x0085), (0x00a0, 0x00a0), (0x1680, 0x1680),
   (0x2000, 0x200a), (0x2028, 0x2029), (0x202f, 0x202f), (0x205f, 0x205f), (0x3000, 0x3000)]

/-- The loop of `fmt.isSpace` over the table. -/
def isSpaceLoop : List (Nat × Nat) → Nat → Bool
  | [], _ => false
  | (lo, hi) :: rest, rx =>
    if rx < lo then false else if rx ≤ hi then true else isSpaceLoop rest rx

/-- The function `fmt.isSpace`. -/
def isSpace (r : Char) : Bool :=
  if r.toNat ≥ 65536 then false else isSpaceLoop space r.toNat

/-- The constant `hexadecimalDigits = "0123456789aAbBcCdDeEfF"` of `fmt/scan.go`. -/
def hexadecimalDigits : List Char :=
  ['0', '1', '2', '3', '4', '5', '6', '7', '8', '9',
   'a', 'A', 'b', 'B', 'c', 'C', 'd', 'D', 'e', 'E', 'f', 'F']

/-- The test `indexRune(hexadecimalDigits, r) >= 0` made by `ss.accept`. -/
def isHexRune (r : Char) : Bool := hexadecimalDigits.contains r

/-- The method `ss.SkipSpace` with `nlIsSpace = false` (the `Sscanf` setting): spaces
are dropped, a carriage return before a newline is dropped, a newline is an error, and the
first rune that is not a space is left unread. -/
def SkipSpace : List Char → Except Error (List Char)
  | [] => .ok []
  | r :: rest =>
    if r = '\r' ∧ rest.head? = some '\n' then SkipSpace rest
    else if r = '\n' then .error (.lib "unexpected newline")
    else if !isSpace r then .ok (r :: rest)
    else SkipSpace rest

/-- The digit value `strconv.ParseUint` gives a byte: `c - '0'` for a decimal digit,
`lower(c) - 'a' + 10` for a letter, where `lower(c) = c | ('x' - 'X')`. -/
def digitValue (c : Char) : Option Nat :=
  let n := c.toNat
  if 48 ≤ n ∧ n ≤ 57 then some (n - 48)
  else if 97 ≤ (n ||| 32) ∧ (n ||| 32) ≤ 122 then some ((n ||| 32) - 97 + 10)
  else none

/-- The loop of `strconv.ParseUint(s, 16, 64)`: `cutoff = maxUint64/16 + 1`,
`maxVal = 1<<64 - 1`, the accumulator `n` is a `uint64`. -/
def ParseUintLoop : List Char → Nat → Except Error Nat
  | [], n => .ok n
  | c :: cs, n =>
    match digitValue c with
    | none => .error (.lib "strconv.ParseUint: invalid syntax")
    | some d =>
      if d ≥ 16 then .error (.lib "strconv.ParseUint: invalid syntax")
      else if n ≥ (2 ^ 64 - 1) / 16 + 1 then
        .error (.lib "strconv.ParseUint: value out of range")
      else
        let n16 := (n * 16) % 2 ^ 64
        let n1 := (n16 + d) % 2 ^ 64
        if n1 < n16 ∨ n1 > 2 ^ 64 - 1 then
          .error (.lib "strconv.ParseUint: value out of range")
        else ParseUintLoop cs n1

/-- The call `strconv.ParseUint(s, 16, 64)`. -/
def ParseUint (s : List Char) : Except Error Nat :=
  if s = [] then .error (.lib "strconv.ParseUint: invalid syntax")
  else ParseUintLoop s 0

/-- The method `ss.scanNumber(hexadecimalDigits, false)`: the input must not be at its end
and must start with a hex digit; the token is the longest run of hex digits. Returns the
token and the unread input. -/
def scanNumber (input : List Char) : Except Error (List Char × List Char) :=
  match input with
  | [] => .error (.lib "EOF")
  | r :: _ =>
    if !isHexRune r then .error (.lib "expected integer")
    else .ok (input.takeWhile isHexRune, input.dropWhile isHexRune)

/-- The method `ss.scanUint('x', 64)`: skip spaces, require input, scan the hex token and
convert it with `strconv.ParseUint(tok, 16, 64)`. -/
def scanUint (input : List Char) : Except Error Nat :=
  match SkipSpace input with
  | .error e => .error e
  | .ok rest =>
    match rest with
    | [] => .error (.lib "EOF")
    | _ :: _ =>
      match scanNumber rest with
      | .error e => .error e
      | .ok (tok, _) => ParseUint tok

/-- The constant `hugeWid = 1 << 30` of `fmt/scan.go`: the scanner reads no rune past
this count. -/
def hugeWid : Nat := 1073741824

/-- The method `ss.doScanf("%x", &v)` with `v` a `uint64`, on the runes the reader can
deliver: `doScanf` meets the verb, skips leading spaces and scans one operand; input left
over after the operand is not looked at. -/
def doScanfHex (input : List Char) : Except Error Nat :=
  match SkipSpace input with
  | .error e => .error e
  | .ok rest => scanUint rest

/-- The call `fmt.Sscanf(str, "%x", &v)` with `v` a `uint64`: the scanned value or the
error. The reader reports the end of input after `hugeWid` runes. -/
def SscanfHex (str : String) : Except Error Nat :=
  doScanfHex (str.data.take hugeWid)

/-! ## The environment: libraries and the outside world -/

/-- A `uuid.UUID`, by its canonical text (the form `userID.String()` sends to the store). -/
abbrev UUID := String

/-- A `time.Time`: nanoseconds since the Unix epoch. -/
abbrev Time := Int

/-- A `time.Duration`: nanoseconds. -/
abbrev Duration := Int

/-- The struct `jwt.TokenClaims`: the three custom claims and the registered claims the
program sets or the library validates (`exp`, `nbf`, `iat`; each a `*NumericDate`). -/
structure TokenClaims where
  UserID : UUID
  UserIP : String
  RefreshID : String
  ExpiresAt : Option Time
  NotBefore : Option Time
  IssuedAt : Option Time
  deriving DecidableEq, Repr

/-- What `jwt.Parser.ParseUnverified` decodes from a compact token: the signing method the
header names and the claims of the payload. -/
structure RawToken where
  Method : String
  Claims : TokenClaims
  deriving DecidableEq, Repr

/-- Everything the program reads from outside the repository. The library functions are
uninterpreted; the outside world (clock, random UUIDs, database and mail failures) is a
family of readings indexed by how many were taken before. -/
structure Env where
  /-- `xxhash.Sum64` of the bytes of a string (used `% 2 ^ 64`). -/
  xxhash : String → Nat
  /-- `jwt.NewWithClaims(jwt.SigningMethodHS512, claims).SignedString(key)`. -/
  SignedString : String → TokenClaims → Except Error String
  /-- `jwt.Parser.ParseUnverified`: `none` for a string that is not a well-formed token. -/
  ParseUnverified : String → Option RawToken
  /-- `token.Method.Verify(signingString, signature, key)` for key and token string. -/
  Verify : String → String → Bool
  /-- The `k`-th reading of `time.Now()`. -/
  clock : Nat → Time
  /-- The `k`-th result of `uuid.NewString()`. -/
  NewString : Nat → String
  /-- Whether the `k`-th statement sent to the database fails (connection, timeout). -/
  dbFails : Nat → Bool
  /-- Whether the `k`-th mail delivery attempt fails. -/
  smtpFails : Nat → Bool

/-! ## `pkg/jwt`: the digest of a refresh token -/

/-- The struct `jwt.TokenManager`. -/
structure TokenManager where
  secretKey : String
  accessTTL : Duration
  refreshTTL : Duration
  deriving DecidableEq, Repr

/-- The value `hasher.Sum64()` after `hasher.Write([]byte(s))` on a fresh `xxhash.New()`:
a `uint64`. -/
def Sum64 (env : Env) (s : String) : Nat := env.xxhash s % 2 ^ 64

/-- The method `TokenManager.HashRefreshToken`. `xxhash.Digest.Write` always returns a nil
error, so the early return is never taken. -/
def TokenManager.HashRefreshToken (env : Env) (_tm : TokenManager) (refreshToken : String) :
    Except Error String :=
  let hash := Sum64 env refreshToken
  .ok (SprintfHex hash)

/-- The function `parseStoredHash`. -/
def parseStoredHash (storedHash : String) : Except Error Nat :=
  match SscanfHex storedHash with
  | .error err => .error err
  | .ok hashValue => .ok hashValue

/-- The error `fmt.Errorf("невалидный формат сохраненного хеша: %w", err)`. -/
def errStoredHashFormat (err : Error) : Error :=
  .wrap "невалидный формат сохраненного хеша" err

/-- The error `fmt.Errorf("токен не соответствует сохраненному хешу")`. -/
def errTokenMismatch : Error :=
  .errorf "токен не соответствует сохраненному хешу"

/-- The method `TokenManager.CompareRefreshToken`; `none` is the nil error. -/
def TokenManager.CompareRefreshToken (env : Env) (_tm : TokenManager)
    (hash refreshToken : String) : Option Error :=
  let computedHash := Sum64 env refreshToken
  match parseStoredHash hash with
  | .error err => some (errStoredHashFormat err)
  | .ok storedHashValue =>
    if storedHashValue ≠ computedHash then some errTokenMismatch
    else none

/-! ## The world the engine runs in -/

/-- The struct `domain.RefreshSession`: one row of the table `refresh_sessions`. -/
structure RefreshSession where
  ID : String
  UserID : UUID
  TokenHash : String
  UserIP : String
  CreatedAt : Time
  ExpiresAt : Time
  deriving DecidableEq, Repr

/-- A call the engine makes on one of its collaborators (kept as a ghost record). -/
inductive Call where
  | SaveRefreshSession (session : RefreshSession)
  | GetRefreshSession (refreshID : String)
  | DeleteRefreshSession (refreshID : String)
  | FindSessionByUserID (userID : String)
  | SendAlert (subject body : String)
  | GenerateTokenPair (userID : UUID) (userIP : String)
  deriving DecidableEq, Repr

/-- The state outside the engine: the table `refresh_sessions`, how many readings of each
kind were taken from the environment, and the record of collaborator calls. -/
structure World where
  rows : List RefreshSession
  ticks : Nat
  uuids : Nat
  dbCalls : Nat
  mails : Nat
  trace : List Call
  deriving DecidableEq, Repr

/-- The value `time.Now()` returns in world `w`. -/
def readClock (env : Env) (w : World) : Time := env.clock w.ticks

/-- The world after one `time.Now()`. -/
def tick (w : World) : World := { w with ticks := w.ticks + 1 }

/-! ## `pkg/jwt`: signing and parsing -/

/-- The struct `jwt.TokenPair`. -/
structure TokenPair where
  AccessToken : String
  RefreshToken : String
  deriving DecidableEq, Repr

/-- The function `jwt.NewNumericDate(t)` under the default `jwt.TimePrecision = time.Second`:
`t.Truncate(time.Second)`. -/
def NewNumericDate (t : Time) : Time := t - t % 1000000000

/-- The claims literal of `generateAccessToken`; the `time.Now()` of `ExpiresAt` is read
before the one of `IssuedAt`. -/
def TokenManager.accessClaims (env : Env) (tm : TokenManager) (userID : UUID)
    (userIP refreshID : String) (w : World) : TokenClaims × World :=
  let t1 := readClock env w
  let w1 := tick w
  let t2 := readClock env w1
  let w2 := tick w1
  ({ UserID := userID, UserIP := userIP, RefreshID := refreshID,
     ExpiresAt := some (NewNumericDate (t1 + tm.accessTTL)),
     NotBefore := none,
     IssuedAt := some (NewNumericDate t2) }, w2)

/-- The method `TokenManager.generateAccessToken`. -/
def TokenManager.generateAccessToken (env : Env) (tm : TokenManager) (userID : UUID)
    (userIP refreshID : String) (w : World) : Except Error String × World :=
  let cw := tm.accessClaims env userID userIP refreshID w
  (env.SignedString tm.secretKey cw.1, cw.2)

/-- The claims literal of `generateRefreshToken`: `UserID` and `UserIP` keep their zero
values (the nil UUID and the empty string). -/
def TokenManager.refreshClaims (env : Env) (tm : TokenManager) (refreshID : String)
    (w : World) : TokenClaims × World :=
  let t1 := readClock env w
  let w1 := tick w
  let t2 := readClock env w1
  let w2 := tick w1
  ({ UserID := "00000000-0000-0000-0000-000000000000", UserIP := "", RefreshID := refreshID,
     ExpiresAt := some (NewNumericDate (t1 + tm.refreshTTL)),
     NotBefore := none,
     IssuedAt := some (NewNumericDate t2) }, w2)

/-- The method `TokenManager.generateRefreshToken`. -/
def TokenManager.generateRefreshToken (env : Env) (tm : TokenManager) (refreshID : String)
    (w : World) : Except Error String × World :=
  let cw := tm.refreshClaims env refreshID w
  (env.SignedString tm.secretKey cw.1, cw.2)

/-- The method `TokenManager.GenerateTokenPair`. -/
def TokenManager.GenerateTokenPair (env : Env) (tm : TokenManager) (userID : UUID)
    (userIP : String) (w : World) : Except Error (TokenPair × String) × World :=
  let refreshID := env.NewString w.uuids
  let w0 := { w with uuids := w.uuids + 1,
                     trace := w.trace ++ [Call.GenerateTokenPair userID userIP] }
  match tm.generateAccessToken env userID userIP refreshID w0 with
  | (.error err, w1) => (.error err, w1)
  | (.ok accessToken, w1) =>
    match tm.generateRefreshToken env refreshID w1 with
    | (.error err, w2) => (.error err, w2)
    | (.ok refreshToken, w2) =>
      (.ok ({ AccessToken := accessToken, RefreshToken := refreshToken }, refreshID), w2)

/-- The sentinel errors of `golang-jwt/jwt/v5` that `ParseWithClaims` can report. -/
inductive JwtSentinel where
  | ErrTokenMalformed
  | ErrTokenUnverifiable
  | ErrTokenSignatureInvalid
  | ErrTokenInvalidClaims
  | ErrTokenExpired
  | ErrTokenNotValidYet
  deriving DecidableEq, Repr

/-- The default `jwt.Validator.Validate` on the claims at time `now`: `exp`, when present,
must be after `now`; `nbf`, when present, must not be after `now`; `iat` is not checked. The
result lists the failed checks. -/
def Validate (claims : TokenClaims) (now : Time) : List JwtSentinel :=
  (match claims.ExpiresAt with
   | some exp => if now < exp then [] else [JwtSentinel.ErrTokenExpired]
   | none => []) ++
  (match claims.NotBefore with
   | some nbf => if now < nbf then [JwtSentinel.ErrTokenNotValidYet] else []
   | none => [])

/-- The function `jwt.ParseWithClaims(tokenString, &TokenClaims{}, keyFunc)` of
`golang-jwt/jwt/v5` with the default parser: decode, ask `keyFunc` for the key, verify the
signature, then validate the claims against one reading of the clock. The error is the
list of sentinels `errors.Is` finds in it. -/
def ParseWithClaims (env : Env) (tokenString : String)
    (keyFunc : RawToken → Except Error String) (w : World) :
    Except (List JwtSentinel) RawToken × World :=
  match env.ParseUnverified tokenString with
  | none => (.error [JwtSentinel.ErrTokenMalformed], w)
  | some token =>
    match keyFunc token with
    | .error _ => (.error [JwtSentinel.ErrTokenUnverifiable], w)
    | .ok key =>
      if !env.Verify key tokenString then (.error [JwtSentinel.ErrTokenSignatureInvalid], w)
      else
        let now := readClock env w
        let w1 := tick w
        match Validate token.Claims now with
        | [] => (.ok token, w1)
        | e :: es => (.error (JwtSentinel.ErrTokenInvalidClaims :: e :: es), w1)

/-- The method `TokenManager.parseTokens`. When `ParseWithClaims` returns no error the
token carries `*TokenClaims` and is valid, so the last guard never fires. -/
def TokenManager.parseTokens (env : Env) (tm : TokenManager) (tokenString : String)
    (w : World) : Except Error TokenClaims × World :=
  match ParseWithClaims env tokenString
      (fun token =>
        if token.Method ≠ "HS512" then .error Error.ErrInvalidToken
        else .ok tm.secretKey) w with
  | (.error err, w1) =>
    if JwtSentinel.ErrTokenExpired ∈ err then (.error Error.ErrTokenExpired, w1)
    else (.error Error.ErrInvalidToken, w1)
  | (.ok token, w1) => (.ok token.Claims, w1)

/-- The method `TokenManager.ParseAccessToken`. -/
def TokenManager.ParseAccessToken (env : Env) (tm : TokenManager) (accessToken : String)
    (w : World) : Except Error TokenClaims × World :=
  tm.parseTokens env accessToken w

/-- The method `TokenManager.ParseRefreshToken`. -/
def TokenManager.ParseRefreshToken (env : Env) (tm : TokenManager) (refreshToken : String)
    (w : World) : Except Error TokenClaims × World :=
  tm.parseTokens env refreshToken w

/-- The method `TokenManager.GetRefreshTTL`. -/
def TokenManager.GetRefreshTTL (tm : TokenManager) : Duration := tm.refreshTTL

/-! ## `internal/repository/postgres`: the session store -/

/-- The world after one statement was sent to the database. -/
def dbCall (w : World) (c : Call) : World :=
  { w with dbCalls := w.dbCalls + 1, trace := w.trace ++ [c] }

/-- The error `fmt.Errorf("%s: %w", op, err)` of the repository. -/
def errRepo (op : String) : Error := .wrap op (.lib "database/sql")

/-- Modelled from the spec: the schema of `refresh_sessions` is not among the sources; the
spec's row layout names `sessionId` the unique key, so an insert is rejected when a row with
the same `id` is present. -/
def violatesKey (rows : List RefreshSession) (session : RefreshSession) : Bool :=
  rows.any (fun r => r.ID == session.ID)

/-- The method `RefreshTokenRepository.SaveRefreshSession`: one `INSERT`. -/
def SaveRefreshSession (env : Env) (session : RefreshSession) (w : World) :
    Option Error × World :=
  let w1 := dbCall w (Call.SaveRefreshSession session)
  if env.dbFails w.dbCalls then
    (some (errRepo "repository.postgres.SaveRefreshSession"), w1)
  else if violatesKey w.rows session then
    (some (errRepo "repository.postgres.SaveRefreshSession"), w1)
  else (none, { w1 with rows := w.rows ++ [session] })

/-- The method `RefreshTokenRepository.GetRefreshSession`: `SELECT ... WHERE id = $1`,
`sql.ErrNoRows` mapped to `(nil, nil)`. -/
def GetRefreshSession (env : Env) (refreshID : String) (w : World) :
    Except Error (Option RefreshSession) × World :=
  let w1 := dbCall w (Call.GetRefreshSession refreshID)
  if env.dbFails w.dbCalls then (.error (.lib "database/sql"), w1)
  else (.ok (w.rows.find? (fun r => r.ID == refreshID)), w1)

/-- The method `RefreshTokenRepository.DeleteRefreshSession`:
`DELETE FROM refresh_sessions WHERE id = $1`. -/
def DeleteRefreshSession (env : Env) (refreshID : String) (w : World) :
    Option Error × World :=
  let w1 := dbCall w (Call.DeleteRefreshSession refreshID)
  if env.dbFails w.dbCalls then
    (some (errRepo "repository.postgres.DeleteRefreshSession"), w1)
  else (none, { w1 with rows := w.rows.filter (fun r => r.ID != refreshID) })

/-- The method `RefreshTokenRepository.FindSessionByUserID`:
`SELECT COUNT(*) ... WHERE user_id = $1`, answered `count > 0`. -/
def FindSessionByUserID (env : Env) (userID : String) (w : World) :
    Except Error Bool × World :=
  let w1 := dbCall w (Call.FindSessionByUserID userID)
  if env.dbFails w.dbCalls then (.error (.lib "database/sql"), w1)
  else
    let count := w.rows.countP (fun r => r.UserID == userID)
    (.ok (decide (count > 0)), w1)

/-! ## `pkg/smtp`: the alert sink -/

/-- The fields of `config.SMTPConfig` that decide what `SendAlert` does. -/
structure SMTPConfig where
  Username : String
  Password : String
  deriving DecidableEq, Repr

/-- The method `EmailSender.SendAlert`: without credentials the alert is printed and nil
returned; otherwise one delivery is attempted over the network and its failure returned
wrapped. -/
def SendAlert (env : Env) (config : SMTPConfig) (subject body : String) (w : World) :
    Option Error × World :=
  let w1 := { w with trace := w.trace ++ [Call.SendAlert subject body] }
  if config.Username = "" ∨ config.Password = "" then (none, w1)
  else
    let w2 := { w1 with mails := w1.mails + 1 }
    if env.smtpFails w.mails then (some (.wrap "ошибка при отправке письма" (.lib "net/smtp")), w2)
    else (none, w2)

/-! ## `internal/usecase`: the rotation engine -/

/-- The struct `usecase.AuthUseCase` as `main` wires it: the token manager, the mail
configuration of the alert sink; the repository is the table in the world. -/
structure AuthUseCase where
  tokenManager : TokenManager
  emailSender : SMTPConfig
  deriving DecidableEq, Repr

/-- The method `AuthUseCase.GenerateTokens`. The result `.ok none` is `(nil, nil)`. -/
def AuthUseCase.GenerateTokens (env : Env) (uc : AuthUseCase) (userID : UUID)
    (userIP : String) (w : World) : Except Error (Option TokenPair) × World :=
  match FindSessionByUserID env userID w with
  | (.error _, w1) =>
    (.error (.errorf "внутренняя ошибка при проверке сессии пользователя"), w1)
  | (.ok true, w1) => (.ok none, w1)
  | (.ok false, w1) =>
    match uc.tokenManager.GenerateTokenPair env userID userIP w1 with
    | (.error err, w2) => (.error err, w2)
    | (.ok (tokenPair, refreshID), w2) =>
      let ttlRefresh := uc.tokenManager.GetRefreshTTL
      match uc.tokenManager.HashRefreshToken env tokenPair.RefreshToken with
      | .error err => (.error err, w2)
      | .ok refreshHash =>
        let t1 := readClock env w2
        let w3 := tick w2
        let t2 := readClock env w3
        let w4 := tick w3
        let session : RefreshSession :=
          { ID := refreshID, UserID := userID, TokenHash := refreshHash, UserIP := userIP,
            ExpiresAt := t1 + ttlRefresh, CreatedAt := t2 }
        match SaveRefreshSession env session w4 with
        | (some err, w5) => (.error err, w5)
        | (none, w5) => (.ok (some tokenPair), w5)

/-- The body `fmt.Sprintf("IP адрес для токена %s изменился. Старый: %s, Новый: %s", ...)`. -/
def alertBody (refreshToken storedIP userIP : String) : String :=
  "IP адрес для токена " ++ refreshToken ++ " изменился. Старый: " ++ storedIP ++
    ", Новый: " ++ userIP

/-- The method `AuthUseCase.RefreshTokens`. -/
def AuthUseCase.RefreshTokens (env : Env) (uc : AuthUseCase) (refreshToken userIP : String)
    (w : World) : Except Error (Option TokenPair) × World :=
  match uc.tokenManager.ParseRefreshToken env refreshToken w with
  | (.error err, w1) => (.error err, w1)
  | (.ok refreshClaim, w1) =>
    match GetRefreshSession env refreshClaim.RefreshID w1 with
    | (.error _, w2) => (.error (.errorf "внутренняя ошибка при обработке refresh токена"), w2)
    | (.ok none, w2) => (.error (.errorf "refresh токен не найден"), w2)
    | (.ok (some session), w2) =>
      match uc.tokenManager.CompareRefreshToken env session.TokenHash refreshToken with
      | some _ => (.error (.errorf "неверный refresh токен"), w2)
      | none =>
        let t := readClock env w2
        let w3 := tick w2
        if t > session.ExpiresAt then
          let w4 := (DeleteRefreshSession env refreshToken w3).2
          (.error (.errorf "refresh токен истёк"), w4)
        else
          let w4 :=
            if session.UserIP ≠ userIP then
              (SendAlert env uc.emailSender "Предупреждение: Несоответствие IP"
                (alertBody refreshToken session.UserIP userIP) w3).2
            else w3
          match DeleteRefreshSession env refreshClaim.RefreshID w4 with
          | (some _, w5) =>
            (.error (.errorf "внутренняя ошибка при удалении старой сессии"), w5)
          | (none, w5) => uc.GenerateTokens env session.UserID userIP w5

/-! ## Properties of the environment used as assumptions -/

/-- The registered claims hold whole seconds, as every `NumericDate` made by
`jwt.NewNumericDate` does. -/
def WholeSeconds (c : TokenClaims) : Prop :=
  (∀ t, c.ExpiresAt = some t → t % 1000000000 = 0) ∧
  (∀ t, c.NotBefore = some t → t % 1000000000 = 0) ∧
  (∀ t, c.IssuedAt = some t → t % 1000000000 = 0)

/-- The JWT library verifies what it signed: a token signed under `key` decodes to the HS512
method and the claims that were signed, and its signature verifies under `key`. -/
def CodecSound (env : Env) (key : String) : Prop :=
  ∀ c s, WholeSeconds c → env.SignedString key c = .ok s →
    env.ParseUnverified s = some ⟨"HS512", c⟩ ∧ env.Verify key s = true

/-- Signing with an HMAC key never fails. -/
def SigningTotal (env : Env) (key : String) : Prop :=
  ∀ c, ∃ s, env.SignedString key c = .ok s

/-! ## Concrete environments for evaluating the engine -/

/-- The claims of the sample refresh tokens. -/
def demoClaims : TokenClaims :=
  { UserID := "00000000-0000-0000-0000-000000000000", UserIP := "", RefreshID := "session-1",
    ExpiresAt := some 2000000000000, NotBefore := none, IssuedAt := some 1000000000000 }

/-- A small environment: the clock stands at 1500 s, the database and the mail transport
work, and the JWT library knows four token strings: `refresh-1` (HS512, valid signature,
expires at 2000 s), `forged-1` (same claims, bad signature), `hs256-1` (signed with HS256)
and `stale-1` (valid signature, expired at 1200 s). The digest of a string is its length. -/
def demoEnv : Env where
  xxhash := fun s => s.length
  SignedString := fun _ c => .ok ("jwt:" ++ c.RefreshID ++ ":" ++ c.UserIP)
  ParseUnverified := fun s =>
    if s = "refresh-1" ∨ s = "forged-1" then some ⟨"HS512", demoClaims⟩
    else if s = "hs256-1" then some ⟨"HS256", demoClaims⟩
    else if s = "stale-1" then
      some ⟨"HS512", { demoClaims with ExpiresAt := some 1200000000000 }⟩
    else none
  Verify := fun key s =>
    key == "secret" && (s == "refresh-1" || s == "stale-1" || s == "hs256-1")
  clock := fun _ => 1500000000000
  NewString := fun k => match k with
    | 0 => "session-a"
    | 1 => "session-b"
    | _ => "session-c"
  dbFails := fun _ => false
  smtpFails := fun _ => false

/-- The engine with the default TTLs of `config.InitConfig` (15 min, 24 h) and a mail
configuration without credentials. -/
def demoUseCase : AuthUseCase :=
  { tokenManager :=
      { secretKey := "secret", accessTTL := 900000000000, refreshTTL := 86400000000000 },
    emailSender := { Username := "", Password := "" } }

/-- A session row for `session-1` whose digest `9` is the digest of `refresh-1`. -/
def demoSession (expiresAt : Time) : RefreshSession :=
  { ID := "session-1", UserID := "user-1", TokenHash := "9", UserIP := "10.0.0.1",
    CreatedAt := 1000000000000, ExpiresAt := expiresAt }

/-- A world holding the given rows, with no reading taken yet. -/
def demoWorld (rows : List RefreshSession) : World :=
  { rows := rows, ticks := 0, uuids := 0, dbCalls := 0, mails := 0, trace := [] }

/-- The number a claim set is coded as. -/
def claimsCode (c : TokenClaims) : Nat :=
  Encodable.encode
    (c.UserID.data.map Char.toNat, c.UserIP.data.map Char.toNat,
      c.RefreshID.data.map Char.toNat, c.ExpiresAt, c.NotBefore, c.IssuedAt)

/-- The claim set a number codes, if any. -/
def claimsOfCode (n : Nat) : Option TokenClaims :=
  (Encodable.decode n :
      Option (List Nat × List Nat × List Nat × Option Int × Option Int × Option Int)).map
    fun t =>
      { UserID := String.mk (t.1.map Char.ofNat), UserIP := String.mk (t.2.1.map Char.ofNat),
        RefreshID := String.mk (t.2.2.1.map Char.ofNat), ExpiresAt := t.2.2.2.1,
        NotBefore := t.2.2.2.2.1, IssuedAt := t.2.2.2.2.2 }

/-- An environment whose JWT library is lossless: a token is a run of `t` whose length codes
the claims, every signature verifies. The rest is `demoEnv`. -/
def codecEnv : Env :=
  { demoEnv with
    SignedString := fun _ c => .ok (String.mk (List.replicate (claimsCode c) 't'))
    ParseUnverified := fun s => (claimsOfCode s.length).map fun c => ⟨"HS512", c⟩
    Verify := fun _ _ => true }

/-! ## Closed forms of one issuance and one rotation -/

/-- The claims `GenerateTokens` signs into the access token when it starts in world `w`. -/
def issuedAccessClaims (env : Env) (uc : AuthUseCase) (userID : UUID) (userIP : String)
    (w : World) : TokenClaims :=
  { UserID := userID, UserIP := userIP, RefreshID := env.NewString w.uuids,
    ExpiresAt := some (NewNumericDate (env.clock w.ticks + uc.tokenManager.accessTTL)),
    NotBefore := none,
    IssuedAt := some (NewNumericDate (env.clock (w.ticks + 1))) }

/-- The claims `GenerateTokens` signs into the refresh token when it starts in world `w`. -/
def issuedRefreshClaims (env : Env) (uc : AuthUseCase) (w : World) : TokenClaims :=
  { UserID := "00000000-0000-0000-0000-000000000000", UserIP := "",
    RefreshID := env.NewString w.uuids,
    ExpiresAt := some (NewNumericDate (env.clock (w.ticks + 2) + uc.tokenManager.refreshTTL)),
    NotBefore := none,
    IssuedAt := some (NewNumericDate (env.clock (w.ticks + 3))) }

/-- The row `GenerateTokens` saves for the refresh token `refreshToken` when it starts in
world `w`. -/
def issuedSession (env : Env) (uc : AuthUseCase) (userID : UUID) (userIP : String)
    (w : World) (refreshToken : String) : RefreshSession :=
  { ID := env.NewString w.uuids, UserID := userID,
    TokenHash := SprintfHex (Sum64 env refreshToken), UserIP := userIP,
    ExpiresAt := env.clock (w.ticks + 4) + uc.tokenManager.refreshTTL,
    CreatedAt := env.clock (w.ticks + 5) }

/-- The world in which `GenerateTokens`, started in `w`, calls `SaveRefreshSession`. -/
def worldBeforeSave (w : World) (userID : UUID) (userIP : String) : World :=
  { rows := w.rows, ticks := w.ticks + 6, uuids := w.uuids + 1, dbCalls := w.dbCalls + 1,
    mails := w.mails,
    trace := w.trace ++ [Call.FindSessionByUserID userID, Call.GenerateTokenPair userID userIP] }

/-- The world in which `RefreshTokens`, started in `w` with a token of claims `c` that
matches the live row `session`, calls `GenerateTokens`: the clock was read twice (by the
parser and by the expiry test), the row was looked up, an alert was sent if the address
differs, and the rows with the session's id were deleted. -/
def worldAfterDelete (uc : AuthUseCase) (refreshToken userIP : String) (w : World)
    (c : TokenClaims) (session : RefreshSession) : World :=
  { rows := w.rows.filter (fun r => r.ID != c.RefreshID),
    ticks := w.ticks + 2,
    uuids := w.uuids,
    dbCalls := w.dbCalls + 2,
    mails :=
      if session.UserIP ≠ userIP ∧ ¬ (uc.emailSender.Username = "" ∨ uc.emailSender.Password = "")
      then w.mails + 1 else w.mails,
    trace := w.trace ++ [Call.GetRefreshSession c.RefreshID] ++
      (if session.UserIP ≠ userIP then
        [Call.SendAlert "Предупреждение: Несоответствие IP"
          (alertBody refreshToken session.UserIP userIP)]
       else []) ++
      [Call.DeleteRefreshSession c.RefreshID] }

/-- The world in which `RefreshTokens`, started in `w` with a token of claims `c` that
matches the live row `session`, deletes the old row: the clock was read twice (by the parser
and by the expiry test), the row was looked up, and an alert was sent if the address
differs. -/
def worldAfterAlert (uc : AuthUseCase) (refreshToken userIP : String) (w : World)
    (c : TokenClaims) (session : RefreshSession) : World :=
  { rows := w.rows,
    ticks := w.ticks + 2,
    uuids := w.uuids,
    dbCalls := w.dbCalls + 1,
    mails :=
      if session.UserIP ≠ userIP ∧ ¬ (uc.emailSender.Username = "" ∨ uc.emailSender.Password = "")
      then w.mails + 1 else w.mails,
    trace := w.trace ++ [Call.GetRefreshSession c.RefreshID] ++
      (if session.UserIP ≠ userIP then
        [Call.SendAlert "Предупреждение: Несоответствие IP"
          (alertBody refreshToken session.UserIP userIP)]
       else []) }

/-! ## Observations on results and worlds -/

/-- The environment `env` with the mail transport's failures replaced by `f`. -/
def withSmtp (env : Env) (f : Nat → Bool) : Env := { env with smtpFails := f }

/-- Whether a recorded call is a `SendAlert`. -/
def Call.isSendAlert : Call → Bool
  | .SendAlert _ _ => true
  | _ => false

/-- How many `SendAlert` calls the world has recorded. -/
def alertCount (w : World) : Nat := w.trace.countP Call.isSendAlert

/-- The three outcomes of the engine's entry points. -/
inductive Outcome where
  | pair
  | noop
  | failure
  deriving DecidableEq, Repr

/-- The kind of a result `(*TokenPair, error)`. -/
def outcomeOf : Except Error (Option TokenPair) → Outcome
  | .ok (some _) => .pair
  | .ok none => .noop
  | .error _ => .failure

/-- An engine whose alert sink has credentials, so alerts go over the network. -/
def mailingUseCase : AuthUseCase :=
  { demoUseCase with emailSender := { Username := "alerts", Password := "hunter2" } }

/-! ## What the digest scanner accepts -/

/-- The hex encodings of a 64-bit value in the strict sense: one to sixteen hex digits and
nothing else. -/
def isHexUint64 (s : String) : Bool :=
  !s.data.isEmpty && decide (s.data.length ≤ 16) && s.data.all isHexRune

/-- The number a run of hex digits denotes, continuing from `n`. -/
def hexValueFrom (n : Nat) (digs : List Char) : Nat :=
  digs.foldl (fun acc c => acc * 16 + (digitValue c).getD 0) n

/-- The strings `fmt.Sscanf(s, "%x", &v)` scans a `uint64` from, stated without the scanner:
some spaces other than newline, then a non-empty run of hex digits that ends at the end of
the string or before a rune that is not a hex digit, denoting a value `v` below `2 ^ 64`. -/
def ScansAs (s : List Char) (v : Nat) : Prop :=
  ∃ pre digs rest, s = pre ++ digs ++ rest ∧
    (∀ c ∈ pre, isSpace c = true ∧ c ≠ '\n') ∧
    digs ≠ [] ∧ (∀ c ∈ digs, isHexRune c = true) ∧
    (∀ c, rest.head? = some c → isHexRune c = false) ∧
    hexValueFrom 0 digs = v ∧ v < 2 ^ 64

/-- A token manager configured with `JWT_ACCESS_TTL=0s` and `JWT_REFRESH_TTL=500ms`, which
`config.InitConfig` accepts. -/
def shortTTLManager : TokenManager :=
  { secretKey := "secret", accessTTL := 0, refreshTTL := 500000000 }

/-! ## The invariant of the store -/

/-- The store holds at most one session row for every user. -/
def OneRowPerUser (rows : List RefreshSession) : Prop :=
  ∀ userID : UUID, rows.countP (fun r => r.UserID == userID) ≤ 1

/-! ## Lemmas on the digest codec -/

theorem ldigits_spec (d : Nat) (h : d < 16) :
    isHexRune (ldigits d) = true ∧ digitValue (ldigits d) = some d := by
  interval_cases d <;> exact ⟨by decide, by decide⟩

theorem hexRune_not_space :
    ∀ c ∈ hexadecimalDigits, c ≠ '\r' ∧ c ≠ '\n' ∧ isSpace c = false := by
  decide

theorem SkipSpace_hex (c : Char) (rest : List Char) (h : isHexRune c = true) :
    SkipSpace (c :: rest) = .ok (c :: rest) := by
  have hc : c ∈ hexadecimalDigits := by
    simpa [isHexRune] using h
  obtain ⟨h1, h2, h3⟩ := hexRune_not_space c hc
  simp [SkipSpace, h1, h2, h3]

theorem ParseUintLoop_step (d n : Nat) (cs : List Char) (c : Char)
    (hc : digitValue c = some d) (hd : d < 16) (hn : n * 16 + d < 2 ^ 64) :
    ParseUintLoop (c :: cs) n = ParseUintLoop cs (n * 16 + d) := by
  have h1 : ¬ (n ≥ (2 ^ 64 - 1) / 16 + 1) := by norm_num; omega
  have h2 : (n * 16) % 2 ^ 64 = n * 16 := Nat.mod_eq_of_lt (by omega)
  have h3 : (n * 16 + d) % 2 ^ 64 = n * 16 + d := Nat.mod_eq_of_lt hn
  have h4 : ¬ (n * 16 + d < n * 16 ∨ n * 16 + d > 2 ^ 64 - 1) := by omega
  simp only [ParseUintLoop, hc]
  rw [if_neg (by omega), if_neg h1]
  simp only [h2, h3]
  rw [if_neg h4]

theorem ParseUintLoop_fmtIntegerHex (fuel : Nat) :
    ∀ (u : Nat) (buf : List Char), u < 16 ^ (fuel + 1) → u < 2 ^ 64 →
      ParseUintLoop (fmtIntegerHex fuel u buf) 0 = ParseUintLoop buf u := by
  induction fuel with
  | zero =>
    intro u buf hu h64
    have hu16 : u < 16 := by simpa using hu
    have := ParseUintLoop_step u 0 buf (ldigits u) (ldigits_spec u hu16).2 hu16 (by omega)
    simpa [fmtIntegerHex] using this
  | succ fuel ih =>
    intro u buf hu h64
    by_cases hge : u ≥ 16
    · have hdiv : u / 16 < 16 ^ (fuel + 1) := by
        rw [Nat.div_lt_iff_lt_mul (by norm_num)]
        calc u < 16 ^ (fuel + 1 + 1) := hu
          _ = 16 ^ (fuel + 1) * 16 := by ring
      have hm : u % 16 < 16 := Nat.mod_lt _ (by norm_num)
      have hstep := ParseUintLoop_step (u % 16) (u / 16) buf (ldigits (u % 16))
        (ldigits_spec _ hm).2 hm (by omega)
      have hrec : u / 16 * 16 + u % 16 = u := by omega
      rw [hrec] at hstep
      simp only [fmtIntegerHex, if_pos hge]
      rw [ih (u / 16) _ hdiv (by omega), hstep]
    · have hu16 : u < 16 := by omega
      have := ParseUintLoop_step u 0 buf (ldigits u) (ldigits_spec u hu16).2 hu16 (by omega)
      simpa [fmtIntegerHex, hge] using this

theorem fmtIntegerHex_all_hex (fuel : Nat) :
    ∀ (u : Nat) (buf : List Char), u < 16 ^ (fuel + 1) →
      (∀ c ∈ buf, isHexRune c = true) → ∀ c ∈ fmtIntegerHex fuel u buf, isHexRune c = true := by
  induction fuel with
  | zero =>
    intro u buf hu hbuf c hc
    have hu16 : u < 16 := by simpa using hu
    simp only [fmtIntegerHex, List.mem_cons] at hc
    rcases hc with rfl | hc
    · exact (ldigits_spec u hu16).1
    · exact hbuf c hc
  | succ fuel ih =>
    intro u buf hu hbuf c hc
    by_cases hge : u ≥ 16
    · have hdiv : u / 16 < 16 ^ (fuel + 1) := by
        rw [Nat.div_lt_iff_lt_mul (by norm_num)]
        calc u < 16 ^ (fuel + 1 + 1) := hu
          _ = 16 ^ (fuel + 1) * 16 := by ring
      simp only [fmtIntegerHex, if_pos hge] at hc
      refine ih (u / 16) _ hdiv ?_ c hc
      intro c' hc'
      simp only [List.mem_cons] at hc'
      rcases hc' with rfl | hc'
      · exact (ldigits_spec _ (Nat.mod_lt _ (by norm_num))).1
      · exact hbuf c' hc'
    · have hu16 : u < 16 := by omega
      simp only [fmtIntegerHex, if_neg hge, List.mem_cons] at hc
      rcases hc with rfl | hc
      · exact (ldigits_spec u hu16).1
      · exact hbuf c hc

theorem fmtIntegerHex_ne_nil (fuel u : Nat) (buf : List Char) :
    fmtIntegerHex fuel u buf ≠ [] := by
  induction fuel generalizing u buf with
  | zero => simp [fmtIntegerHex]
  | succ fuel ih =>
    by_cases hge : u ≥ 16
    · simpa [fmtIntegerHex, hge] using ih _ _
    · simp [fmtIntegerHex, hge]

theorem fmtIntegerHex_length (fuel : Nat) :
    ∀ (u : Nat) (buf : List Char), (fmtIntegerHex fuel u buf).length ≤ fuel + 1 + buf.length := by
  induction fuel with
  | zero => intro u buf; simp [fmtIntegerHex]; omega
  | succ fuel ih =>
    intro u buf
    by_cases hge : u ≥ 16
    · have := ih (u / 16) (ldigits (u % 16) :: buf)
      simp only [fmtIntegerHex, if_pos hge]
      simp only [List.length_cons] at this
      omega
    · simp only [fmtIntegerHex, if_neg hge, List.length_cons]
      omega

/-- Scanning the rendering of a `uint64` gives the value back. -/
theorem SscanfHex_SprintfHex (u : Nat) (h : u < 2 ^ 64) :
    SscanfHex (SprintfHex u) = .ok u := by
  have hu : u < 16 ^ (16 + 1) := by
    calc u < 2 ^ 64 := h
      _ ≤ 16 ^ (16 + 1) := by norm_num
  have hall := fmtIntegerHex_all_hex 16 u [] hu (by simp)
  have hne := fmtIntegerHex_ne_nil 16 u []
  have hparse := ParseUintLoop_fmtIntegerHex 16 u [] hu h
  have hlen := fmtIntegerHex_length 16 u []
  have htk : (fmtIntegerHex 16 u []).take hugeWid = fmtIntegerHex 16 u [] := by
    apply List.take_of_length_le
    simp only [List.length_nil, hugeWid] at hlen ⊢
    omega
  obtain ⟨c, rest, hcr⟩ := List.exists_cons_of_ne_nil hne
  have hc : isHexRune c = true := hall c (by rw [hcr]; simp)
  have htake : List.takeWhile isHexRune (c :: rest) = c :: rest := by
    rw [List.takeWhile_eq_self_iff]
    intro x hx
    exact hall x (by rw [hcr]; exact hx)
  simp only [SscanfHex, SprintfHex, htk]
  simp only [doScanfHex, hcr, SkipSpace_hex c rest hc, scanUint, scanNumber, hc,
    htake, ParseUint]
  rw [hcr] at hparse
  simpa [ParseUintLoop] using hparse

/-! ## The scanner against its description -/

theorem hexRune_digitValue :
    ∀ c ∈ hexadecimalDigits, ∃ d, d < 16 ∧ digitValue c = some d := by
  decide

theorem isHexRune_digitValue (c : Char) (h : isHexRune c = true) :
    ∃ d, d < 16 ∧ digitValue c = some d :=
  hexRune_digitValue c (by simpa [isHexRune] using h)

theorem hexValueFrom_ge (digs : List Char) : ∀ n, n ≤ hexValueFrom n digs := by
  induction digs with
  | nil => intro n; exact le_refl n
  | cons c cs ih =>
    intro n
    have := ih (n * 16 + (digitValue c).getD 0)
    simp only [hexValueFrom, List.foldl_cons] at this ⊢
    omega

theorem ParseUintLoop_spec (digs : List Char) :
    ∀ n, (∀ c ∈ digs, isHexRune c = true) → n < 2 ^ 64 →
      ParseUintLoop digs n =
        if hexValueFrom n digs < 2 ^ 64 then .ok (hexValueFrom n digs)
        else .error (.lib "strconv.ParseUint: value out of range") := by
  induction digs with
  | nil =>
    intro n _ hn
    have hv : hexValueFrom n [] = n := rfl
    rw [hv, if_pos hn]
    rfl
  | cons c cs ih =>
    intro n hall hn
    obtain ⟨d, hd, hc⟩ := isHexRune_digitValue c (hall c (by simp))
    have hcs : ∀ x ∈ cs, isHexRune x = true := fun x hx => hall x (by simp [hx])
    have hfold : hexValueFrom n (c :: cs) = hexValueFrom (n * 16 + d) cs := by
      simp [hexValueFrom, hc]
    by_cases hcut : n * 16 + d < 2 ^ 64
    · rw [ParseUintLoop_step d n cs c hc hd hcut, ih (n * 16 + d) hcs hcut, hfold]
    · have hge := hexValueFrom_ge cs (n * 16 + d)
      have hbig : ¬ hexValueFrom n (c :: cs) < 2 ^ 64 := by
        rw [hfold]; omega
      have hn60 : n ≥ (2 ^ 64 - 1) / 16 + 1 := by
        norm_num
        omega
      rw [if_neg hbig]
      simp only [ParseUintLoop, hc]
      rw [if_neg (by omega), if_pos hn60]

theorem SkipSpace_spaces (pre : List Char) (r : Char) (t : List Char)
    (hpre : ∀ c ∈ pre, isSpace c = true ∧ c ≠ '\n') (hr : isSpace r = false) :
    SkipSpace (pre ++ r :: t) = .ok (r :: t) := by
  induction pre with
  | nil =>
    have h1 : r ≠ '\r' := by
      intro h; rw [h] at hr; exact absurd hr (by decide)
    have h2 : r ≠ '\n' := by
      intro h; rw [h] at hr; exact absurd hr (by decide)
    simp [SkipSpace, h1, h2, hr]
  | cons c cs ih =>
    have hc := hpre c (by simp)
    have hcs : ∀ x ∈ cs, isSpace x = true ∧ x ≠ '\n' := fun x hx => hpre x (by simp [hx])
    rw [List.cons_append]
    unfold SkipSpace
    split
    · exact ih hcs
    · simp only [hc.2, if_false, hc.1, Bool.not_true, Bool.false_eq_true]
      exact ih hcs

theorem SkipSpace_ok (s r : List Char) (h : SkipSpace s = .ok r) :
    ∃ pre, s = pre ++ r ∧ (∀ c ∈ pre, isSpace c = true ∧ c ≠ '\n') := by
  induction s with
  | nil =>
    simp only [SkipSpace, Except.ok.injEq] at h
    exact ⟨[], by simp [← h], by simp⟩
  | cons c cs ih =>
    unfold SkipSpace at h
    split at h
    · rename_i hcr
      obtain ⟨pre, hpre, hall⟩ := ih h
      refine ⟨c :: pre, by simp [hpre], ?_⟩
      intro x hx
      rcases List.mem_cons.mp hx with rfl | hx
      · rw [hcr.1]; exact ⟨by decide, by decide⟩
      · exact hall x hx
    · split at h
      · simp at h
      · rename_i hnl
        split at h
        · simp only [Except.ok.injEq] at h
          exact ⟨[], by simp [h], by simp⟩
        · rename_i hsp
          obtain ⟨pre, hpre, hall⟩ := ih h
          refine ⟨c :: pre, by simp [hpre], ?_⟩
          intro x hx
          rcases List.mem_cons.mp hx with rfl | hx
          · exact ⟨by simpa using hsp, hnl⟩
          · exact hall x hx

theorem takeWhile_run (digs rest : List Char) (hd : ∀ c ∈ digs, isHexRune c = true)
    (hr : ∀ c, rest.head? = some c → isHexRune c = false) :
    (digs ++ rest).takeWhile isHexRune = digs := by
  induction digs with
  | nil =>
    cases rest with
    | nil => rfl
    | cons c cs => simp [List.takeWhile, hr c rfl]
  | cons c cs ih =>
    have hc := hd c (by simp)
    simp only [List.cons_append, List.takeWhile_cons, hc, if_true]
    rw [ih (fun x hx => hd x (by simp [hx]))]

theorem dropWhile_head (l : List Char) :
    ∀ c, (l.dropWhile isHexRune).head? = some c → isHexRune c = false := by
  induction l with
  | nil => intro c h; simp at h
  | cons x xs ih =>
    intro c h
    by_cases hx : isHexRune x = true
    · simp only [List.dropWhile_cons, hx, if_true] at h
      exact ih c h
    · simp only [List.dropWhile_cons, hx, if_false, Bool.false_eq_true, List.head?_cons,
        Option.some.injEq] at h
      rw [← h]
      simpa using hx

/-- The scanner accepts exactly the inputs `ScansAs` describes, with that value. -/
theorem doScanfHex_iff (s : List Char) (v : Nat) :
    doScanfHex s = .ok v ↔ ScansAs s v := by
  constructor
  · intro h
    unfold doScanfHex at h
    cases h1 : SkipSpace s with
    | error e => simp [h1] at h
    | ok r =>
      simp only [h1] at h
      obtain ⟨pre, hs, hpre⟩ := SkipSpace_ok s r h1
      unfold scanUint at h
      cases h2 : SkipSpace r with
      | error e => simp [h2] at h
      | ok r2 =>
        simp only [h2] at h
        cases r2 with
        | nil => simp at h
        | cons c t =>
          simp only [scanNumber] at h
          by_cases hc : isHexRune c = true
          · simp only [hc, Bool.not_true, Bool.false_eq_true, if_false] at h
            have hcs : isSpace c = false :=
              (hexRune_not_space c (by simpa [isHexRune] using hc)).2.2
            -- the second SkipSpace changes nothing
            obtain ⟨pre2, hs2, hpre2⟩ := SkipSpace_ok r (c :: t) h2
            have htake : List.takeWhile isHexRune (c :: t) ≠ [] := by
              simp [List.takeWhile_cons, hc]
            have hall : ∀ x ∈ List.takeWhile isHexRune (c :: t), isHexRune x = true :=
              fun x hx => List.mem_takeWhile_imp hx
            unfold ParseUint at h
            rw [if_neg htake, ParseUintLoop_spec _ 0 hall (by norm_num)] at h
            by_cases hlt : hexValueFrom 0 (List.takeWhile isHexRune (c :: t)) < 2 ^ 64
            · rw [if_pos hlt] at h
              refine ⟨pre ++ pre2, List.takeWhile isHexRune (c :: t),
                List.dropWhile isHexRune (c :: t), ?_, ?_, htake, hall, dropWhile_head _,
                Except.ok.inj h, ?_⟩
              · rw [hs, hs2, List.append_assoc, List.append_assoc,
                  List.takeWhile_append_dropWhile]
              · intro x hx
                rcases List.mem_append.mp hx with hx | hx
                · exact hpre x hx
                · exact hpre2 x hx
              · rw [← Except.ok.inj h]; exact hlt
            · rw [if_neg hlt] at h
              simp at h
          · simp [hc] at h
  · rintro ⟨pre, digs, rest, hs, hpre, hne, hall, hrest, hv, hlt⟩
    obtain ⟨c, t, hct⟩ := List.exists_cons_of_ne_nil hne
    have hc : isHexRune c = true := hall c (by simp [hct])
    have hcs : isSpace c = false :=
      (hexRune_not_space c (by simpa [isHexRune] using hc)).2.2
    have h1 : SkipSpace s = .ok (c :: (t ++ rest)) := by
      rw [hs, hct, List.append_assoc, List.cons_append]
      exact SkipSpace_spaces pre c (t ++ rest) hpre hcs
    have htake : List.takeWhile isHexRune (c :: (t ++ rest)) = digs := by
      rw [← List.cons_append, ← hct]
      exact takeWhile_run digs rest hall hrest
    unfold doScanfHex
    rw [h1]
    simp only [scanUint, SkipSpace_hex c (t ++ rest) hc, scanNumber, hc, htake,
      Bool.not_true, Bool.false_eq_true, if_false, ParseUint, hne]
    rw [ParseUintLoop_spec digs 0 hall (by norm_num), hv, if_pos hlt]

/-- The call `fmt.Sscanf(s, "%x", &v)` succeeds with `v` exactly when the first `hugeWid`
runes of `s` are of the form `ScansAs` describes, with value `v`. -/
theorem SscanfHex_iff (s : String) (v : Nat) :
    SscanfHex s = .ok v ↔ ScansAs (s.data.take hugeWid) v :=
  doScanfHex_iff (s.data.take hugeWid) v

/-! ## Frame lemmas for parsing -/

theorem ParseWithClaims_world (env : Env) (tok : String)
    (keyFunc : RawToken → Except Error String) (w : World) :
    (ParseWithClaims env tok keyFunc w).2 = w ∨
      (ParseWithClaims env tok keyFunc w).2 = tick w := by
  unfold ParseWithClaims
  split
  · simp
  · split
    · simp
    · split
      · simp
      · simp only []
        split <;> simp

theorem parseTokens_world (env : Env) (tm : TokenManager) (tok : String) (w : World) :
    (tm.parseTokens env tok w).2 = w ∨ (tm.parseTokens env tok w).2 = tick w := by
  unfold TokenManager.parseTokens
  have h := ParseWithClaims_world env tok
      (fun token =>
        if token.Method ≠ "HS512" then .error Error.ErrInvalidToken
        else .ok tm.secretKey) w
  rcases hp : ParseWithClaims env tok
      (fun token =>
        if token.Method ≠ "HS512" then .error Error.ErrInvalidToken
        else .ok tm.secretKey) w with ⟨r, w1⟩
  rw [hp] at h
  cases r with
  | error e => simp only; split <;> simpa using h
  | ok t => simpa using h

theorem parseTokens_error_cases (env : Env) (tm : TokenManager) (tok : String) (w : World)
    (err : Error) (h : (tm.parseTokens env tok w).1 = .error err) :
    err = Error.ErrInvalidToken ∨ err = Error.ErrTokenExpired := by
  unfold TokenManager.parseTokens at h
  split at h
  · split at h
    · right; simpa using h.symm
    · left; simpa using h.symm
  · simp at h

theorem parseTokens_bad_signature (env : Env) (tm : TokenManager) (tok : String) (w : World)
    (token : RawToken) (hp : env.ParseUnverified tok = some token)
    (hbad : token.Method ≠ "HS512" ∨ env.Verify tm.secretKey tok = false) :
    (tm.parseTokens env tok w).1 = .error Error.ErrInvalidToken := by
  unfold TokenManager.parseTokens ParseWithClaims
  by_cases hm : token.Method = "HS512"
  · have hv : env.Verify tm.secretKey tok = false := by
      rcases hbad with h | h
      · exact absurd hm h
      · exact h
    simp [hp, hm, hv]
  · simp [hp, hm]

theorem parseTokens_expired (env : Env) (tm : TokenManager) (tok : String) (w : World)
    (token : RawToken) (exp : Time) (hp : env.ParseUnverified tok = some token)
    (hm : token.Method = "HS512") (hv : env.Verify tm.secretKey tok = true)
    (hexp : token.Claims.ExpiresAt = some exp) (hpast : exp ≤ readClock env w) :
    (tm.parseTokens env tok w).1 = .error Error.ErrTokenExpired := by
  unfold TokenManager.parseTokens ParseWithClaims
  have hnot : ¬ readClock env w < exp := not_lt.mpr hpast
  cases hn : token.Claims.NotBefore with
  | none => simp [hp, hm, hv, Validate, hexp, hnot, hn]
  | some nbf =>
    by_cases hlt : readClock env w < nbf <;>
      simp [hp, hm, hv, Validate, hexp, hnot, hn, hlt]

/-! ## Lemmas on issuance -/

theorem countP_pos_of_row (rows : List RefreshSession) (userID : UUID)
    (hrow : ∃ r ∈ rows, r.UserID = userID) :
    rows.countP (fun r => r.UserID == userID) > 0 := by
  obtain ⟨r, hr, hu⟩ := hrow
  exact List.countP_pos_iff.mpr ⟨r, hr, by simp [hu]⟩

theorem countP_zero_of_no_row (rows : List RefreshSession) (userID : UUID)
    (hnone : ∀ r ∈ rows, r.UserID ≠ userID) :
    rows.countP (fun r => r.UserID == userID) = 0 := by
  rw [List.countP_eq_zero]
  intro r hr
  simpa using hnone r hr

theorem GenerateTokens_issue (env : Env) (uc : AuthUseCase) (userID : UUID) (userIP : String)
    (w : World) (a r : String)
    (hfind : env.dbFails w.dbCalls = false)
    (hnone : ∀ r ∈ w.rows, r.UserID ≠ userID)
    (hA : env.SignedString uc.tokenManager.secretKey
      (issuedAccessClaims env uc userID userIP w) = .ok a)
    (hR : env.SignedString uc.tokenManager.secretKey (issuedRefreshClaims env uc w) = .ok r) :
    uc.GenerateTokens env userID userIP w =
      match SaveRefreshSession env (issuedSession env uc userID userIP w r)
          (worldBeforeSave w userID userIP) with
      | (some err, w5) => (.error err, w5)
      | (none, w5) => (.ok (some ⟨a, r⟩), w5) := by
  have hc := countP_zero_of_no_row w.rows userID hnone
  unfold issuedAccessClaims at hA
  unfold issuedRefreshClaims at hR
  simp only [AuthUseCase.GenerateTokens, FindSessionByUserID, hfind, hc,
    TokenManager.GenerateTokenPair, TokenManager.generateAccessToken,
    TokenManager.accessClaims, TokenManager.generateRefreshToken, TokenManager.refreshClaims,
    TokenManager.HashRefreshToken, TokenManager.GetRefreshTTL, readClock, tick, dbCall,
    issuedSession, worldBeforeSave, Nat.add_assoc, Nat.reduceAdd, hA, hR,
    List.append_assoc, List.singleton_append, gt_iff_lt, lt_self_iff_false, decide_False,
    Bool.false_eq_true, if_false]

theorem Sum64_lt (env : Env) (s : String) : Sum64 env s < 2 ^ 64 :=
  Nat.mod_lt _ (by norm_num)

theorem CompareRefreshToken_digest (env : Env) (tm : TokenManager) (s1 s2 : String) :
    tm.CompareRefreshToken env (SprintfHex (Sum64 env s1)) s2 =
      if Sum64 env s1 ≠ Sum64 env s2 then some errTokenMismatch else none := by
  simp only [TokenManager.CompareRefreshToken, parseStoredHash,
    SscanfHex_SprintfHex _ (Sum64_lt env s1)]

theorem violatesKey_false (rows : List RefreshSession) (session : RefreshSession)
    (h : ∀ r ∈ rows, r.ID ≠ session.ID) : violatesKey rows session = false := by
  unfold violatesKey
  rw [List.any_eq_false]
  intro r hr
  simpa using h r hr

theorem SaveRefreshSession_error_rows (env : Env) (session : RefreshSession) (w w5 : World)
    (err : Error) (h : SaveRefreshSession env session w = (some err, w5)) :
    w5.rows = w.rows := by
  unfold SaveRefreshSession at h
  split at h
  · simp only [Prod.mk.injEq] at h; rw [← h.2]; rfl
  · split at h
    · simp only [Prod.mk.injEq] at h; rw [← h.2]; rfl
    · simp at h

theorem SaveRefreshSession_ok_rows (env : Env) (session : RefreshSession) (w w5 : World)
    (h : SaveRefreshSession env session w = (none, w5)) :
    w5.rows = w.rows ++ [session] := by
  unfold SaveRefreshSession at h
  split at h
  · simp at h
  · split at h
    · simp at h
    · simp only [Prod.mk.injEq] at h; rw [← h.2]

theorem SaveRefreshSession_ok (env : Env) (session : RefreshSession) (w : World)
    (hdb : env.dbFails w.dbCalls = false) (hkey : ∀ r ∈ w.rows, r.ID ≠ session.ID) :
    SaveRefreshSession env session w =
      (none, { dbCall w (Call.SaveRefreshSession session) with rows := w.rows ++ [session] }) := by
  simp [SaveRefreshSession, hdb, violatesKey_false w.rows session hkey]

theorem demoEnv_signing (key : String) : SigningTotal demoEnv key :=
  fun c => ⟨"jwt:" ++ c.RefreshID ++ ":" ++ c.UserIP, rfl⟩


/-! ## Lemmas on rotation -/

theorem parseTokens_ok (env : Env) (tm : TokenManager) (tok : String) (w : World)
    (c : TokenClaims) (hp : env.ParseUnverified tok = some ⟨"HS512", c⟩)
    (hv : env.Verify tm.secretKey tok = true) (hval : Validate c (env.clock w.ticks) = []) :
    tm.parseTokens env tok w = (.ok c, tick w) := by
  simp [TokenManager.parseTokens, ParseWithClaims, hp, hv, readClock, hval]

theorem RefreshTokens_rotate (env : Env) (uc : AuthUseCase) (tok userIP : String) (w : World)
    (c : TokenClaims) (session : RefreshSession)
    (hparse : uc.tokenManager.parseTokens env tok w = (.ok c, tick w))
    (hget : env.dbFails w.dbCalls = false)
    (hfound : w.rows.find? (fun r => r.ID == c.RefreshID) = some session)
    (hcmp : uc.tokenManager.CompareRefreshToken env session.TokenHash tok = none)
    (hlive : env.clock (w.ticks + 1) ≤ session.ExpiresAt)
    (hdel : env.dbFails (w.dbCalls + 1) = false) :
    uc.RefreshTokens env tok userIP w =
      uc.GenerateTokens env session.UserID userIP
        (worldAfterDelete uc tok userIP w c session) := by
  have hl : ¬ env.clock (w.ticks + 1) > session.ExpiresAt := not_lt.mpr hlive
  unfold AuthUseCase.RefreshTokens TokenManager.ParseRefreshToken
  rw [hparse]
  simp only [GetRefreshSession, tick, dbCall, hget, hfound, hcmp, readClock, hl, if_false,
    Bool.false_eq_true]
  by_cases hip : session.UserIP = userIP
  · simp [hip, DeleteRefreshSession, dbCall, hdel, worldAfterDelete]
  · by_cases hcfg : uc.emailSender.Username = "" ∨ uc.emailSender.Password = ""
    · simp [hip, hcfg, SendAlert, DeleteRefreshSession, dbCall, hdel, worldAfterDelete]
    · cases hs : env.smtpFails w.mails <;>
        simp [hip, hcfg, hs, SendAlert, DeleteRefreshSession, dbCall, hdel, worldAfterDelete]

theorem NewNumericDate_whole (t : Time) : NewNumericDate t % 1000000000 = 0 := by
  have h : ∀ x : Int, (x - x % 1000000000) % 1000000000 = 0 := by
    intro x
    omega
  exact h t

theorem issuedRefreshClaims_whole (env : Env) (uc : AuthUseCase) (w : World) :
    WholeSeconds (issuedRefreshClaims env uc w) := by
  refine ⟨?_, ?_, ?_⟩ <;> intro t ht <;>
    simp only [issuedRefreshClaims, Option.some.injEq] at ht
  · rw [← ht]; exact NewNumericDate_whole _
  · exact absurd ht (by simp)
  · rw [← ht]; exact NewNumericDate_whole _

theorem ParseWithClaims_ok_token (env : Env) (tok : String)
    (keyFunc : RawToken → Except Error String) (w w1 : World) (token : RawToken)
    (h : ParseWithClaims env tok keyFunc w = (.ok token, w1)) :
    env.ParseUnverified tok = some token := by
  unfold ParseWithClaims at h
  split at h
  · simp at h
  · split at h
    · simp at h
    · split at h
      · simp at h
      · simp only [] at h
        split at h
        · simp only [Prod.mk.injEq, Except.ok.injEq] at h
          rw [← h.1]
          assumption
        · simp at h

theorem parseTokens_ok_claims (env : Env) (tm : TokenManager) (tok : String) (w w1 : World)
    (c : TokenClaims) (h : tm.parseTokens env tok w = (.ok c, w1)) :
    ∃ token, env.ParseUnverified tok = some token ∧ token.Claims = c := by
  unfold TokenManager.parseTokens at h
  rcases hp : ParseWithClaims env tok
      (fun token =>
        if token.Method ≠ "HS512" then .error Error.ErrInvalidToken
        else .ok tm.secretKey) w with ⟨res, w2⟩
  rw [hp] at h
  cases res with
  | error e =>
    simp only at h
    split at h <;> simp at h
  | ok token =>
    simp only [Prod.mk.injEq, Except.ok.injEq] at h
    exact ⟨token, ParseWithClaims_ok_token env tok _ w w2 token hp, h.1⟩

theorem RefreshTokens_not_found (env : Env) (uc : AuthUseCase) (tok userIP : String)
    (w : World) (token : RawToken) (hp : env.ParseUnverified tok = some token)
    (hgone : ∀ r ∈ w.rows, r.ID ≠ token.Claims.RefreshID) :
    ∃ e, (uc.RefreshTokens env tok userIP w).1 = .error e := by
  unfold AuthUseCase.RefreshTokens TokenManager.ParseRefreshToken
  rcases hparse : uc.tokenManager.parseTokens env tok w with ⟨res, w1⟩
  cases res with
  | error e => exact ⟨e, rfl⟩
  | ok c =>
    obtain ⟨token', hp', hc⟩ := parseTokens_ok_claims env uc.tokenManager tok w w1 c hparse
    rw [hp] at hp'
    have htok : token = token' := Option.some.inj hp'
    subst htok
    subst hc
    have hrows : w1.rows = w.rows := by
      have := parseTokens_world env uc.tokenManager tok w
      rw [hparse] at this
      rcases this with h | h
      · simp only at h; rw [h]
      · simp only at h; rw [h]; rfl
    have hfind : w1.rows.find? (fun r => r.ID == token.Claims.RefreshID) = none := by
      rw [hrows, List.find?_eq_none]
      intro r hr
      simpa using hgone r hr
    cases hdb : env.dbFails w1.dbCalls <;>
      simp [GetRefreshSession, hdb, hfind]

theorem find_appended_row (rows : List RefreshSession) (session : RefreshSession)
    (h : ∀ r ∈ rows, r.ID ≠ session.ID) :
    (rows ++ [session]).find? (fun r => r.ID == session.ID) = some session := by
  have hnone : rows.find? (fun r => r.ID == session.ID) = none := by
    rw [List.find?_eq_none]
    intro r hr
    simpa using h r hr
  simp [List.find?_append, hnone]

/-! ## The lossless codec satisfies the assumptions -/

theorem codes_of_chars (l : List Char) : (l.map Char.toNat).map Char.ofNat = l := by
  induction l with
  | nil => rfl
  | cons c cs ih => simp [Char.ofNat_toNat, ih]

theorem claimsOfCode_claimsCode (c : TokenClaims) : claimsOfCode (claimsCode c) = some c := by
  unfold claimsOfCode claimsCode
  rw [Encodable.encodek]
  simp only [Option.map_some', codes_of_chars]

theorem codecEnv_SignedString (key : String) (c : TokenClaims) :
    codecEnv.SignedString key c = .ok (String.mk (List.replicate (claimsCode c) 't')) := rfl

theorem codecEnv_ParseUnverified (s : String) :
    codecEnv.ParseUnverified s = (claimsOfCode s.length).map fun c => ⟨"HS512", c⟩ := rfl

theorem codecEnv_sound (key : String) : CodecSound codecEnv key := by
  intro c s _ hs
  rw [codecEnv_SignedString] at hs
  have hs' : String.mk (List.replicate (claimsCode c) 't') = s := Except.ok.inj hs
  refine ⟨?_, rfl⟩
  rw [codecEnv_ParseUnverified, ← hs', String.length, List.length_replicate,
    claimsOfCode_claimsCode]
  rfl

theorem codecEnv_signing (key : String) : SigningTotal codecEnv key :=
  fun c => ⟨String.mk (List.replicate (claimsCode c) 't'), rfl⟩


/-! ## Lemmas on alerts and outcomes -/

theorem GenerateTokens_withSmtp (env : Env) (f : Nat → Bool) (uc : AuthUseCase) (userID : UUID)
    (userIP : String) (w : World) :
    uc.GenerateTokens (withSmtp env f) userID userIP w = uc.GenerateTokens env userID userIP w :=
  rfl

theorem SendAlert_withSmtp (env : Env) (f : Nat → Bool) (cfg : SMTPConfig) (s b : String)
    (w : World) :
    (SendAlert (withSmtp env f) cfg s b w).2 = (SendAlert env cfg s b w).2 := by
  unfold SendAlert
  split
  · rfl
  · simp only []
    split <;> split <;> rfl

theorem RefreshTokens_withSmtp (env : Env) (f : Nat → Bool) (uc : AuthUseCase)
    (tok userIP : String) (w : World) :
    uc.RefreshTokens (withSmtp env f) tok userIP w = uc.RefreshTokens env tok userIP w := by
  unfold AuthUseCase.RefreshTokens
  simp only [SendAlert_withSmtp, GenerateTokens_withSmtp]
  rfl

theorem GenerateTokenPair_world (env : Env) (tm : TokenManager) (userID : UUID)
    (userIP : String) (w : World) :
    (tm.GenerateTokenPair env userID userIP w).2.trace =
        w.trace ++ [Call.GenerateTokenPair userID userIP] ∧
      (tm.GenerateTokenPair env userID userIP w).2.rows = w.rows ∧
      (tm.GenerateTokenPair env userID userIP w).2.dbCalls = w.dbCalls ∧
      (tm.GenerateTokenPair env userID userIP w).2.uuids = w.uuids + 1 ∧
      (tm.GenerateTokenPair env userID userIP w).2.mails = w.mails := by
  unfold TokenManager.GenerateTokenPair TokenManager.generateAccessToken
    TokenManager.generateRefreshToken TokenManager.accessClaims TokenManager.refreshClaims
  simp only [tick]
  split
  · rename_i h
    simp only [Prod.mk.injEq] at h
    rw [← h.2]
    simp
  · rename_i h
    simp only [Prod.mk.injEq] at h
    rw [← h.2]
    split
    · rename_i h2
      simp only [Prod.mk.injEq] at h2
      rw [← h2.2]
      simp
    · rename_i h2
      simp only [Prod.mk.injEq] at h2
      rw [← h2.2]
      simp

theorem SaveRefreshSession_world (env : Env) (session : RefreshSession) (w : World) :
    (SaveRefreshSession env session w).2.trace = w.trace ++ [Call.SaveRefreshSession session] ∧
      (SaveRefreshSession env session w).2.mails = w.mails := by
  unfold SaveRefreshSession
  split
  · simp [dbCall]
  · split <;> simp [dbCall]

theorem GenerateTokens_alertCount (env : Env) (uc : AuthUseCase) (userID : UUID)
    (userIP : String) (w : World) :
    alertCount (uc.GenerateTokens env userID userIP w).2 = alertCount w := by
  unfold AuthUseCase.GenerateTokens
  have hfind : (FindSessionByUserID env userID w).2 =
      dbCall w (Call.FindSessionByUserID userID) := by
    unfold FindSessionByUserID
    split <;> rfl
  have hbase : alertCount (dbCall w (Call.FindSessionByUserID userID)) = alertCount w := by
    simp [alertCount, dbCall, Call.isSendAlert]
  rcases hf : FindSessionByUserID env userID w with ⟨res, w1⟩
  rw [hf] at hfind
  simp only at hfind
  subst hfind
  rcases res with _ | b
  · exact hbase
  · cases b
    · simp only
      have hg := GenerateTokenPair_world env uc.tokenManager userID userIP
        (dbCall w (Call.FindSessionByUserID userID))
      rcases hgen : uc.tokenManager.GenerateTokenPair env userID userIP
        (dbCall w (Call.FindSessionByUserID userID)) with ⟨res2, w2⟩
      rw [hgen] at hg
      simp only at hg
      have h2 : alertCount w2 = alertCount w := by
        rw [← hbase]
        simp [alertCount, hg.1, Call.isSendAlert]
      rcases res2 with _ | ⟨tokenPair, refreshID⟩
      · exact h2
      · simp only [TokenManager.HashRefreshToken]
        have h3 : ∀ session : RefreshSession,
            alertCount (SaveRefreshSession env session (tick (tick w2))).2 = alertCount w := by
          intro session
          rw [← h2]
          unfold alertCount
          rw [(SaveRefreshSession_world env session (tick (tick w2))).1]
          simp [tick, Call.isSendAlert]
        split
        · rename_i hs
          rw [← h3, hs]
        · rename_i hs
          rw [← h3, hs]
    · exact hbase
theorem parseTokens_ok_world (env : Env) (tm : TokenManager) (tok : String) (w : World)
    (c : TokenClaims) (h : (tm.parseTokens env tok w).1 = .ok c) :
    tm.parseTokens env tok w = (.ok c, tick w) := by
  unfold TokenManager.parseTokens ParseWithClaims at h ⊢
  split at h
  · rename_i err w1 hp
    split at h <;> simp at h
  · rename_i token w1 hp
    simp only [Except.ok.injEq] at h
    subst h
    split at hp
    · simp at hp
    · split at hp
      · simp at hp
      · split at hp
        · simp at hp
        · simp only [] at hp
          split at hp
          · simp only [Prod.mk.injEq, Except.ok.injEq] at hp
            rw [← hp.1, ← hp.2]
          · simp at hp

theorem RefreshTokens_matched (env : Env) (uc : AuthUseCase) (tok userIP : String) (w : World)
    (c : TokenClaims) (session : RefreshSession)
    (hparse : uc.tokenManager.parseTokens env tok w = (.ok c, tick w))
    (hget : env.dbFails w.dbCalls = false)
    (hfound : w.rows.find? (fun r => r.ID == c.RefreshID) = some session)
    (hcmp : uc.tokenManager.CompareRefreshToken env session.TokenHash tok = none)
    (hlive : env.clock (w.ticks + 1) ≤ session.ExpiresAt) :
    uc.RefreshTokens env tok userIP w =
      match DeleteRefreshSession env c.RefreshID (worldAfterAlert uc tok userIP w c session) with
      | (some _, w5) =>
        (.error (.errorf "внутренняя ошибка при удалении старой сессии"), w5)
      | (none, w5) => uc.GenerateTokens env session.UserID userIP w5 := by
  have hl : ¬ env.clock (w.ticks + 1) > session.ExpiresAt := not_lt.mpr hlive
  unfold AuthUseCase.RefreshTokens TokenManager.ParseRefreshToken
  rw [hparse]
  simp only [GetRefreshSession, tick, dbCall, hget, hfound, hcmp, readClock, hl, if_false,
    Bool.false_eq_true]
  by_cases hip : session.UserIP = userIP
  · simp [hip, worldAfterAlert]
  · by_cases hcfg : uc.emailSender.Username = "" ∨ uc.emailSender.Password = ""
    · simp [hip, hcfg, SendAlert, worldAfterAlert]
    · cases hs : env.smtpFails w.mails <;>
        simp [hip, hcfg, hs, SendAlert, worldAfterAlert]

theorem DeleteRefreshSession_world (env : Env) (refreshID : String) (w : World) :
    (DeleteRefreshSession env refreshID w).2.trace =
        w.trace ++ [Call.DeleteRefreshSession refreshID] ∧
      (DeleteRefreshSession env refreshID w).2.dbCalls = w.dbCalls + 1 ∧
      (DeleteRefreshSession env refreshID w).2.uuids = w.uuids := by
  unfold DeleteRefreshSession
  split <;> simp [dbCall]

theorem GenerateTokens_outcome (env : Env) (uc : AuthUseCase) (userID : UUID) (userIP : String)
    (w : World) (hsign : SigningTotal env uc.tokenManager.secretKey) :
    outcomeOf (uc.GenerateTokens env userID userIP w).1 =
      if env.dbFails w.dbCalls then Outcome.failure
      else if w.rows.countP (fun r => r.UserID == userID) > 0 then Outcome.noop
      else if env.dbFails (w.dbCalls + 1) ∨
          w.rows.any (fun r => r.ID == env.NewString w.uuids) then Outcome.failure
      else Outcome.pair := by
  cases hdb : env.dbFails w.dbCalls
  · by_cases hc : w.rows.countP (fun r => r.UserID == userID) > 0
    · simp [AuthUseCase.GenerateTokens, FindSessionByUserID, hdb, hc, outcomeOf]
    · have hnone : ∀ r ∈ w.rows, r.UserID ≠ userID := by
        have h0 : w.rows.countP (fun r => r.UserID == userID) = 0 := by omega
        rw [List.countP_eq_zero] at h0
        intro r hr
        simpa using h0 r hr
      obtain ⟨a, hA⟩ := hsign (issuedAccessClaims env uc userID userIP w)
      obtain ⟨r, hR⟩ := hsign (issuedRefreshClaims env uc w)
      rw [GenerateTokens_issue env uc userID userIP w a r hdb hnone hA hR]
      simp only [SaveRefreshSession, worldBeforeSave, violatesKey, issuedSession, hc,
        Bool.false_eq_true, if_false]
      cases hdb2 : env.dbFails (w.dbCalls + 1)
      · cases hk : w.rows.any (fun r => r.ID == env.NewString w.uuids) <;>
          simp [outcomeOf]
      · simp [outcomeOf]
  · simp [AuthUseCase.GenerateTokens, FindSessionByUserID, hdb, outcomeOf]
theorem RefreshTokens_matched_alertCount (env : Env) (uc : AuthUseCase) (tok userIP : String)
    (w : World) (c : TokenClaims) (session : RefreshSession)
    (hparse : uc.tokenManager.parseTokens env tok w = (.ok c, tick w))
    (hget : env.dbFails w.dbCalls = false)
    (hfound : w.rows.find? (fun r => r.ID == c.RefreshID) = some session)
    (hcmp : uc.tokenManager.CompareRefreshToken env session.TokenHash tok = none)
    (hlive : env.clock (w.ticks + 1) ≤ session.ExpiresAt) :
    alertCount (uc.RefreshTokens env tok userIP w).2 =
      alertCount w + (if session.UserIP ≠ userIP then 1 else 0) := by
  rw [RefreshTokens_matched env uc tok userIP w c session hparse hget hfound hcmp hlive]
  have hd := DeleteRefreshSession_world env c.RefreshID (worldAfterAlert uc tok userIP w c session)
  have hcount : alertCount
      (DeleteRefreshSession env c.RefreshID (worldAfterAlert uc tok userIP w c session)).2 =
      alertCount w + (if session.UserIP ≠ userIP then 1 else 0) := by
    unfold alertCount
    rw [hd.1]
    by_cases hip : session.UserIP = userIP <;>
      simp [worldAfterAlert, hip, Call.isSendAlert]
  rcases hdel : DeleteRefreshSession env c.RefreshID
    (worldAfterAlert uc tok userIP w c session) with ⟨res, w5⟩
  rw [hdel] at hcount
  cases res with
  | some e => exact hcount
  | none =>
    simp only
    rw [GenerateTokens_alertCount]
    exact hcount

theorem RefreshTokens_matched_outcome (env : Env) (uc : AuthUseCase) (tok userIP : String)
    (w : World) (c : TokenClaims) (session : RefreshSession)
    (hparse : uc.tokenManager.parseTokens env tok w = (.ok c, tick w))
    (hget : env.dbFails w.dbCalls = false)
    (hfound : w.rows.find? (fun r => r.ID == c.RefreshID) = some session)
    (hcmp : uc.tokenManager.CompareRefreshToken env session.TokenHash tok = none)
    (hlive : env.clock (w.ticks + 1) ≤ session.ExpiresAt)
    (hsign : SigningTotal env uc.tokenManager.secretKey) :
    outcomeOf (uc.RefreshTokens env tok userIP w).1 =
      if env.dbFails (w.dbCalls + 1) then Outcome.failure
      else if env.dbFails (w.dbCalls + 2) then Outcome.failure
      else if (w.rows.filter (fun r => r.ID != c.RefreshID)).countP
          (fun r => r.UserID == session.UserID) > 0 then Outcome.noop
      else if env.dbFails (w.dbCalls + 3) ∨
          (w.rows.filter (fun r => r.ID != c.RefreshID)).any
            (fun r => r.ID == env.NewString w.uuids) then Outcome.failure
      else Outcome.pair := by
  rw [RefreshTokens_matched env uc tok userIP w c session hparse hget hfound hcmp hlive]
  cases hdb : env.dbFails (w.dbCalls + 1)
  · simp only [DeleteRefreshSession, worldAfterAlert, hdb, Bool.false_eq_true, if_false]
    rw [GenerateTokens_outcome env uc session.UserID userIP _ hsign]
    simp only [dbCall, Nat.add_assoc, Nat.reduceAdd]
  · simp [DeleteRefreshSession, worldAfterAlert, hdb, outcomeOf]


theorem RefreshTokens_session_expired (env : Env) (uc : AuthUseCase) (tok userIP : String)
    (w : World) (c : TokenClaims) (session : RefreshSession)
    (hparse : uc.tokenManager.parseTokens env tok w = (.ok c, tick w))
    (hget : env.dbFails w.dbCalls = false)
    (hfound : w.rows.find? (fun r => r.ID == c.RefreshID) = some session)
    (hcmp : uc.tokenManager.CompareRefreshToken env session.TokenHash tok = none)
    (hdead : env.clock (w.ticks + 1) > session.ExpiresAt) :
    (uc.RefreshTokens env tok userIP w).1 = .error (.errorf "refresh токен истёк") ∧
    (uc.RefreshTokens env tok userIP w).2.trace =
      w.trace ++ [Call.GetRefreshSession c.RefreshID, Call.DeleteRefreshSession tok] ∧
    (tok ≠ c.RefreshID → session ∈ (uc.RefreshTokens env tok userIP w).2.rows) := by
  have hmem : session ∈ w.rows := List.mem_of_find?_eq_some hfound
  have hid : session.ID = c.RefreshID := by
    have := List.find?_some hfound
    simpa using this
  unfold AuthUseCase.RefreshTokens TokenManager.ParseRefreshToken
  rw [hparse]
  simp only [GetRefreshSession, tick, dbCall, hget, hfound, hcmp, readClock, hdead, if_true,
    Bool.false_eq_true, if_false]
  refine ⟨trivial, ?_, ?_⟩
  · unfold DeleteRefreshSession
    split <;> simp [dbCall]
  · intro hne
    unfold DeleteRefreshSession
    split
    · exact hmem
    · simp only [dbCall]
      rw [List.mem_filter]
      refine ⟨hmem, ?_⟩
      simp only [bne_iff_ne, ne_eq, hid]
      exact fun h => hne h.symm


theorem NewNumericDate_lt_of_gap (a b : Time) (h : b + 1000000000 ≤ a) :
    NewNumericDate b < NewNumericDate a := by
  have key : ∀ x y : Int, y + 1000000000 ≤ x →
      y - y % 1000000000 < x - x % 1000000000 := by
    intro x y hxy
    omega
  exact key a b h

theorem lt_of_NewNumericDate_lt (a b : Time) (h : NewNumericDate b < NewNumericDate a) :
    b < a := by
  have key : ∀ x y : Int, y - y % 1000000000 < x - x % 1000000000 → y < x := by
    intro x y hxy
    omega
  exact key a b h


/-! ## Every path of an issuance -/

theorem GenerateTokens_find_fails (env : Env) (uc : AuthUseCase) (userID : UUID)
    (userIP : String) (w : World) (hfind : env.dbFails w.dbCalls = true) :
    uc.GenerateTokens env userID userIP w =
      (.error (.errorf "внутренняя ошибка при проверке сессии пользователя"),
        dbCall w (Call.FindSessionByUserID userID)) := by
  simp [AuthUseCase.GenerateTokens, FindSessionByUserID, hfind]

theorem GenerateTokens_exists (env : Env) (uc : AuthUseCase) (userID : UUID)
    (userIP : String) (w : World) (hfind : env.dbFails w.dbCalls = false)
    (hc : w.rows.countP (fun r => r.UserID == userID) > 0) :
    uc.GenerateTokens env userID userIP w =
      (.ok none, dbCall w (Call.FindSessionByUserID userID)) := by
  simp [AuthUseCase.GenerateTokens, FindSessionByUserID, hfind, hc]

theorem GenerateTokens_access_fails (env : Env) (uc : AuthUseCase) (userID : UUID)
    (userIP : String) (w : World) (e : Error)
    (hfind : env.dbFails w.dbCalls = false)
    (hc : w.rows.countP (fun r => r.UserID == userID) = 0)
    (hA : env.SignedString uc.tokenManager.secretKey
      (issuedAccessClaims env uc userID userIP w) = .error e) :
    (uc.GenerateTokens env userID userIP w).1 = .error e ∧
      (uc.GenerateTokens env userID userIP w).2.rows = w.rows := by
  unfold issuedAccessClaims at hA
  simp only [AuthUseCase.GenerateTokens, FindSessionByUserID, hfind, hc,
    TokenManager.GenerateTokenPair, TokenManager.generateAccessToken,
    TokenManager.accessClaims, readClock, tick, dbCall, Nat.add_assoc, Nat.reduceAdd, hA,
    gt_iff_lt, lt_self_iff_false, decide_False, Bool.false_eq_true, if_false, and_self]

theorem GenerateTokens_refresh_fails (env : Env) (uc : AuthUseCase) (userID : UUID)
    (userIP : String) (w : World) (a : String) (e : Error)
    (hfind : env.dbFails w.dbCalls = false)
    (hc : w.rows.countP (fun r => r.UserID == userID) = 0)
    (hA : env.SignedString uc.tokenManager.secretKey
      (issuedAccessClaims env uc userID userIP w) = .ok a)
    (hR : env.SignedString uc.tokenManager.secretKey (issuedRefreshClaims env uc w) =
      .error e) :
    (uc.GenerateTokens env userID userIP w).1 = .error e ∧
      (uc.GenerateTokens env userID userIP w).2.rows = w.rows := by
  unfold issuedAccessClaims at hA
  unfold issuedRefreshClaims at hR
  simp only [AuthUseCase.GenerateTokens, FindSessionByUserID, hfind, hc,
    TokenManager.GenerateTokenPair, TokenManager.generateAccessToken,
    TokenManager.accessClaims, TokenManager.generateRefreshToken, TokenManager.refreshClaims,
    readClock, tick, dbCall, Nat.add_assoc, Nat.reduceAdd, hA, hR,
    gt_iff_lt, lt_self_iff_false, decide_False, Bool.false_eq_true, if_false, and_self]

theorem no_row_of_countP_zero (rows : List RefreshSession) (userID : UUID)
    (hc : rows.countP (fun r => r.UserID == userID) = 0) :
    ∀ r ∈ rows, r.UserID ≠ userID := by
  rw [List.countP_eq_zero] at hc
  intro r hr
  simpa using hc r hr

/-! ## The engine keeps one row per user -/

theorem GenerateTokens_rows (env : Env) (uc : AuthUseCase) (userID : UUID)
    (userIP : String) (w : World) :
    (uc.GenerateTokens env userID userIP w).2.rows = w.rows ∨
      (w.rows.countP (fun r => r.UserID == userID) = 0 ∧
        ∃ session : RefreshSession, session.UserID = userID ∧
          (uc.GenerateTokens env userID userIP w).2.rows = w.rows ++ [session]) := by
  cases hdb : env.dbFails w.dbCalls
  · by_cases hc : w.rows.countP (fun r => r.UserID == userID) > 0
    · left
      rw [GenerateTokens_exists env uc userID userIP w hdb hc]
      rfl
    · have hc0 : w.rows.countP (fun r => r.UserID == userID) = 0 := by omega
      cases hA : env.SignedString uc.tokenManager.secretKey
          (issuedAccessClaims env uc userID userIP w) with
      | error e =>
        left
        exact (GenerateTokens_access_fails env uc userID userIP w e hdb hc0 hA).2
      | ok a =>
        cases hR : env.SignedString uc.tokenManager.secretKey
            (issuedRefreshClaims env uc w) with
        | error e =>
          left
          exact (GenerateTokens_refresh_fails env uc userID userIP w a e hdb hc0 hA hR).2
        | ok r =>
          rw [GenerateTokens_issue env uc userID userIP w a r hdb
            (no_row_of_countP_zero w.rows userID hc0) hA hR]
          rcases hs : SaveRefreshSession env (issuedSession env uc userID userIP w r)
            (worldBeforeSave w userID userIP) with ⟨res, w5⟩
          cases res with
          | some err =>
            left
            exact SaveRefreshSession_error_rows env _ (worldBeforeSave w userID userIP) w5
              err hs
          | none =>
            right
            exact ⟨hc0, issuedSession env uc userID userIP w r, rfl,
              SaveRefreshSession_ok_rows env _ (worldBeforeSave w userID userIP) w5 hs⟩
  · left
    rw [GenerateTokens_find_fails env uc userID userIP w hdb]
    rfl

theorem OneRowPerUser_filter (rows : List RefreshSession) (p : RefreshSession → Bool)
    (h : OneRowPerUser rows) : OneRowPerUser (rows.filter p) := by
  intro u
  exact le_trans (List.Sublist.countP_le _ (List.filter_sublist rows)) (h u)

theorem OneRowPerUser_append (rows : List RefreshSession) (session : RefreshSession)
    (h : OneRowPerUser rows)
    (hc : rows.countP (fun r => r.UserID == session.UserID) = 0) :
    OneRowPerUser (rows ++ [session]) := by
  intro u
  rw [List.countP_append]
  by_cases hu : session.UserID = u
  · subst hu
    rw [hc, Nat.zero_add]
    exact List.countP_le_length (fun r : RefreshSession => r.UserID == session.UserID)
  · have : List.countP (fun r => r.UserID == u) [session] = 0 := by
      simp [List.countP_cons, hu]
    rw [this]
    exact h u

theorem GenerateTokens_OneRowPerUser (env : Env) (uc : AuthUseCase) (userID : UUID)
    (userIP : String) (w : World) (h : OneRowPerUser w.rows) :
    OneRowPerUser (uc.GenerateTokens env userID userIP w).2.rows := by
  rcases GenerateTokens_rows env uc userID userIP w with hr | ⟨hc, session, hu, hr⟩
  · rw [hr]; exact h
  · rw [hr]
    exact OneRowPerUser_append w.rows session h (by rw [hu]; exact hc)

theorem DeleteRefreshSession_rows (env : Env) (refreshID : String) (w : World) :
    (DeleteRefreshSession env refreshID w).2.rows = w.rows ∨
      (DeleteRefreshSession env refreshID w).2.rows =
        w.rows.filter (fun r => r.ID != refreshID) := by
  unfold DeleteRefreshSession
  split
  · left; rfl
  · right; rfl

theorem DeleteRefreshSession_OneRowPerUser (env : Env) (refreshID : String) (w : World)
    (h : OneRowPerUser w.rows) :
    OneRowPerUser (DeleteRefreshSession env refreshID w).2.rows := by
  rcases DeleteRefreshSession_rows env refreshID w with hr | hr
  · rw [hr]; exact h
  · rw [hr]; exact OneRowPerUser_filter w.rows _ h

theorem SendAlert_rows (env : Env) (cfg : SMTPConfig) (s b : String) (w : World) :
    (SendAlert env cfg s b w).2.rows = w.rows := by
  unfold SendAlert
  split
  · rfl
  · simp only []
    split <;> rfl

theorem RefreshTokens_OneRowPerUser (env : Env) (uc : AuthUseCase) (tok userIP : String)
    (w : World) (h : OneRowPerUser w.rows) :
    OneRowPerUser (uc.RefreshTokens env tok userIP w).2.rows := by
  unfold AuthUseCase.RefreshTokens TokenManager.ParseRefreshToken
  have hpw := parseTokens_world env uc.tokenManager tok w
  rcases hp : uc.tokenManager.parseTokens env tok w with ⟨res, w1⟩
  rw [hp] at hpw
  simp only at hpw
  have h1 : OneRowPerUser w1.rows := by
    rcases hpw with rfl | rfl
    · exact h
    · exact h
  cases res with
  | error e => exact h1
  | ok c =>
    simp only
    have hget : (GetRefreshSession env c.RefreshID w1).2.rows = w1.rows := by
      unfold GetRefreshSession
      split <;> rfl
    rcases hg : GetRefreshSession env c.RefreshID w1 with ⟨res2, w2⟩
    rw [hg] at hget
    simp only at hget
    have h2 : OneRowPerUser w2.rows := by rw [hget]; exact h1
    cases res2 with
    | error e => exact h2
    | ok o =>
      cases o with
      | none => exact h2
      | some session =>
        simp only
        cases hcmp : uc.tokenManager.CompareRefreshToken env session.TokenHash tok with
        | some e => exact h2
        | none =>
          simp only
          have h3 : OneRowPerUser (tick w2).rows := h2
          split
          · exact DeleteRefreshSession_OneRowPerUser env tok (tick w2) h3
          · have h4 : OneRowPerUser
                (if session.UserIP ≠ userIP then
                  (SendAlert env uc.emailSender "Предупреждение: Несоответствие IP"
                    (alertBody tok session.UserIP userIP) (tick w2)).2
                 else tick w2).rows := by
              split
              · rw [SendAlert_rows]; exact h3
              · exact h3
            have h5 := DeleteRefreshSession_OneRowPerUser env c.RefreshID _ h4
            split
            · rename_i hd
              rw [hd] at h5
              exact h5
            · rename_i hd
              rw [hd] at h5
              exact GenerateTokens_OneRowPerUser env uc session.UserID userIP _ h5


/-! ## When an issuance refuses, and what a pair implies -/

theorem GenerateTokens_noop_iff (env : Env) (uc : AuthUseCase) (userID : UUID)
    (userIP : String) (w : World) (hfind : env.dbFails w.dbCalls = false) :
    (uc.GenerateTokens env userID userIP w).1 = .ok none ↔
      ∃ r ∈ w.rows, r.UserID = userID := by
  constructor
  · intro h
    by_contra hno
    have hc0 : w.rows.countP (fun r => r.UserID == userID) = 0 := by
      rw [List.countP_eq_zero]
      intro r hr hu
      exact hno ⟨r, hr, by simpa using hu⟩
    cases hA : env.SignedString uc.tokenManager.secretKey
        (issuedAccessClaims env uc userID userIP w) with
    | error e =>
      rw [(GenerateTokens_access_fails env uc userID userIP w e hfind hc0 hA).1] at h
      simp at h
    | ok a =>
      cases hR : env.SignedString uc.tokenManager.secretKey
          (issuedRefreshClaims env uc w) with
      | error e =>
        rw [(GenerateTokens_refresh_fails env uc userID userIP w a e hfind hc0 hA hR).1] at h
        simp at h
      | ok r =>
        rw [GenerateTokens_issue env uc userID userIP w a r hfind
          (no_row_of_countP_zero w.rows userID hc0) hA hR] at h
        rcases hs : SaveRefreshSession env (issuedSession env uc userID userIP w r)
          (worldBeforeSave w userID userIP) with ⟨res, w5⟩
        rw [hs] at h
        cases res <;> simp at h
  · intro hrow
    rw [GenerateTokens_exists env uc userID userIP w hfind
      (countP_pos_of_row w.rows userID hrow)]

theorem GenerateTokens_pair_inv (env : Env) (uc : AuthUseCase) (userID : UUID)
    (userIP : String) (w w1 : World) (pair : TokenPair)
    (h : uc.GenerateTokens env userID userIP w = (.ok (some pair), w1)) :
    env.dbFails w.dbCalls = false ∧ (∀ r ∈ w.rows, r.UserID ≠ userID) ∧
    env.SignedString uc.tokenManager.secretKey (issuedAccessClaims env uc userID userIP w) =
      .ok pair.AccessToken ∧
    env.SignedString uc.tokenManager.secretKey (issuedRefreshClaims env uc w) =
      .ok pair.RefreshToken ∧
    w1.rows = w.rows ++ [issuedSession env uc userID userIP w pair.RefreshToken] := by
  cases hdb : env.dbFails w.dbCalls
  · by_cases hc : w.rows.countP (fun r => r.UserID == userID) > 0
    · rw [GenerateTokens_exists env uc userID userIP w hdb hc] at h
      simp at h
    · have hc0 : w.rows.countP (fun r => r.UserID == userID) = 0 := by omega
      have hnone := no_row_of_countP_zero w.rows userID hc0
      cases hA : env.SignedString uc.tokenManager.secretKey
          (issuedAccessClaims env uc userID userIP w) with
      | error e =>
        have := (GenerateTokens_access_fails env uc userID userIP w e hdb hc0 hA).1
        rw [h] at this
        simp at this
      | ok a =>
        cases hR : env.SignedString uc.tokenManager.secretKey
            (issuedRefreshClaims env uc w) with
        | error e =>
          have := (GenerateTokens_refresh_fails env uc userID userIP w a e hdb hc0 hA hR).1
          rw [h] at this
          simp at this
        | ok r =>
          rw [GenerateTokens_issue env uc userID userIP w a r hdb hnone hA hR] at h
          rcases hs : SaveRefreshSession env (issuedSession env uc userID userIP w r)
            (worldBeforeSave w userID userIP) with ⟨res, w5⟩
          rw [hs] at h
          cases res with
          | some err => simp at h
          | none =>
            simp only [Prod.mk.injEq, Except.ok.injEq, Option.some.injEq] at h
            obtain ⟨hpair, hw⟩ := h
            subst hpair
            subst hw
            exact ⟨rfl, hnone, rfl, rfl,
              SaveRefreshSession_ok_rows env _ (worldBeforeSave w userID userIP) w5 hs⟩
  · rw [GenerateTokens_find_fails env uc userID userIP w hdb] at h
    simp at h

theorem NewNumericDate_le (t : Time) : NewNumericDate t ≤ t := by
  have key : ∀ x : Int, x - x % 1000000000 ≤ x := by
    intro x
    omega
  exact key t

theorem Validate_nil_lt (c : TokenClaims) (now exp : Time) (he : c.ExpiresAt = some exp)
    (h : Validate c now = []) : now < exp := by
  by_contra hn
  simp [Validate, he, hn] at h

theorem OneRowPerUser_unique (rows : List RefreshSession) (h : OneRowPerUser rows)
    (r s : RefreshSession) (hr : r ∈ rows) (hs : s ∈ rows) (hu : r.UserID = s.UserID) :
    r = s := by
  have hlen := h s.UserID
  rw [List.countP_eq_length_filter] at hlen
  have hr' : r ∈ rows.filter (fun x => x.UserID == s.UserID) :=
    List.mem_filter.mpr ⟨hr, by simp [hu]⟩
  have hs' : s ∈ rows.filter (fun x => x.UserID == s.UserID) :=
    List.mem_filter.mpr ⟨hs, by simp⟩
  generalize rows.filter (fun x => x.UserID == s.UserID) = l at hlen hr' hs'
  match l, hlen, hr', hs' with
  | [a], _, hr', hs' =>
    rw [List.mem_singleton.mp hr', List.mem_singleton.mp hs']
  | _ :: _ :: _, hlen, _, _ =>
    simp at hlen

theorem GetRefreshSession_found (env : Env) (refreshID : String) (w w2 : World)
    (session : RefreshSession)
    (h : GetRefreshSession env refreshID w = (.ok (some session), w2)) :
    w.rows.find? (fun r => r.ID == refreshID) = some session ∧ w2.rows = w.rows := by
  unfold GetRefreshSession at h
  split at h
  · simp at h
  · simp only [Prod.mk.injEq, Except.ok.injEq] at h
    exact ⟨h.1, by rw [← h.2]; rfl⟩

theorem DeleteRefreshSession_done (env : Env) (refreshID : String) (w w5 : World)
    (h : DeleteRefreshSession env refreshID w = (none, w5)) :
    w5.rows = w.rows.filter (fun r => r.ID != refreshID) := by
  unfold DeleteRefreshSession at h
  split at h
  · simp at h
  · simp only [Prod.mk.injEq] at h
    rw [← h.2]

theorem GenerateTokens_not_noop (env : Env) (uc : AuthUseCase) (userID : UUID)
    (userIP : String) (w : World) (hnone : ∀ r ∈ w.rows, r.UserID ≠ userID) :
    (uc.GenerateTokens env userID userIP w).1 ≠ .ok none := by
  cases hdb : env.dbFails w.dbCalls
  · intro h
    obtain ⟨r, hr, hu⟩ := (GenerateTokens_noop_iff env uc userID userIP w hdb).mp h
    exact hnone r hr hu
  · rw [GenerateTokens_find_fails env uc userID userIP w hdb]
    simp


/-! ## Claims -/

/-- C1: for all strings `s1`, `s2`, `HashRefreshToken s1` returns a digest `h` and
`CompareRefreshToken h s2` returns nil exactly when the 64-bit xxhash values of `s1` and
`s2` are equal; in particular `CompareRefreshToken h s1` is nil; and rendering any 64-bit
value with `%x` and parsing it back with `parseStoredHash` gives the same value. -/
theorem C1_compare_hash_iff (env : Env) (tm : TokenManager) (s1 s2 : String) :
    ∃ h, tm.HashRefreshToken env s1 = .ok h ∧
      (tm.CompareRefreshToken env h s2 = none ↔ Sum64 env s1 = Sum64 env s2) ∧
      tm.CompareRefreshToken env h s1 = none ∧
      ∀ u, u < 2 ^ 64 → parseStoredHash (SprintfHex u) = .ok u := by
  have hlt : ∀ s, Sum64 env s < 2 ^ 64 := fun s => Nat.mod_lt _ (by norm_num)
  refine ⟨SprintfHex (Sum64 env s1), rfl, ?_, ?_, ?_⟩
  · simp only [TokenManager.CompareRefreshToken, parseStoredHash,
      SscanfHex_SprintfHex _ (hlt s1)]
    by_cases h : Sum64 env s1 = Sum64 env s2 <;> simp [h]
  · simp [TokenManager.CompareRefreshToken, parseStoredHash, SscanfHex_SprintfHex _ (hlt s1)]
  · intro u hu
    simp [parseStoredHash, SscanfHex_SprintfHex u hu]

/-- C2: whenever `ParseRefreshToken` fails with `err` (which is `ErrInvalidToken` or
`ErrTokenExpired`: the former for a token with a bad signature or a signing method other
than HS512, the latter for a verified token whose `expiresAt` is not after the clock),
`RefreshTokens` returns no pair and that same error, and makes no call on the session store
and no `SendAlert` call: the table, the record of collaborator calls, the count of database
statements and the count of mail deliveries are what they were. -/
theorem C2_parse_failure_returns_before_store (env : Env) (uc : AuthUseCase)
    (refreshToken userIP : String) (w : World) (err : Error)
    (h : (uc.tokenManager.ParseRefreshToken env refreshToken w).1 = .error err) :
    (uc.RefreshTokens env refreshToken userIP w).1 = .error err ∧
    (uc.RefreshTokens env refreshToken userIP w).2.rows = w.rows ∧
    (uc.RefreshTokens env refreshToken userIP w).2.trace = w.trace ∧
    (uc.RefreshTokens env refreshToken userIP w).2.dbCalls = w.dbCalls ∧
    (uc.RefreshTokens env refreshToken userIP w).2.mails = w.mails ∧
    (err = Error.ErrInvalidToken ∨ err = Error.ErrTokenExpired) ∧
    (∀ token, env.ParseUnverified refreshToken = some token →
      (token.Method ≠ "HS512" ∨ env.Verify uc.tokenManager.secretKey refreshToken = false) →
      err = Error.ErrInvalidToken) ∧
    (∀ token exp, env.ParseUnverified refreshToken = some token →
      token.Method = "HS512" → env.Verify uc.tokenManager.secretKey refreshToken = true →
      token.Claims.ExpiresAt = some exp → exp ≤ readClock env w →
      err = Error.ErrTokenExpired) := by
  have hf := parseTokens_world env uc.tokenManager refreshToken w
  have hcases := parseTokens_error_cases env uc.tokenManager refreshToken w err h
  have hsig : ∀ token, env.ParseUnverified refreshToken = some token →
      (token.Method ≠ "HS512" ∨ env.Verify uc.tokenManager.secretKey refreshToken = false) →
      err = Error.ErrInvalidToken := by
    intro token hp hbad
    have := parseTokens_bad_signature env uc.tokenManager refreshToken w token hp hbad
    unfold TokenManager.ParseRefreshToken at h
    rw [this] at h
    exact (Except.error.inj h).symm
  have hexp : ∀ token exp, env.ParseUnverified refreshToken = some token →
      token.Method = "HS512" → env.Verify uc.tokenManager.secretKey refreshToken = true →
      token.Claims.ExpiresAt = some exp → exp ≤ readClock env w →
      err = Error.ErrTokenExpired := by
    intro token exp hp hm hv he hpast
    have := parseTokens_expired env uc.tokenManager refreshToken w token exp hp hm hv he hpast
    unfold TokenManager.ParseRefreshToken at h
    rw [this] at h
    exact (Except.error.inj h).symm
  refine ⟨?_, ?_, ?_, ?_, ?_, hcases, hsig, hexp⟩ <;>
  · unfold AuthUseCase.RefreshTokens
    unfold TokenManager.ParseRefreshToken at h ⊢
    rcases hp : uc.tokenManager.parseTokens env refreshToken w with ⟨r, w1⟩
    rw [hp] at h hf
    simp only at h hf
    subst h
    first
      | (simp only; done)
      | (rcases hf with rfl | rfl <;> simp [tick])

/-- C2 at a token with a forged signature (no clock reading, no store call) and at a
verified token that expired 300 s before the clock reading. -/
theorem C2_parse_failure_witness :
    ((demoUseCase.RefreshTokens demoEnv "forged-1" "10.0.0.1"
        (demoWorld [demoSession 1600000000000])).1 = .error Error.ErrInvalidToken ∧
      (demoUseCase.RefreshTokens demoEnv "forged-1" "10.0.0.1"
        (demoWorld [demoSession 1600000000000])).2.trace = []) ∧
    ((demoUseCase.RefreshTokens demoEnv "stale-1" "10.0.0.1"
        (demoWorld [demoSession 1600000000000])).1 = .error Error.ErrTokenExpired ∧
      (demoUseCase.RefreshTokens demoEnv "stale-1" "10.0.0.1"
        (demoWorld [demoSession 1600000000000])).2.trace = []) :=
  ⟨(fun h => ⟨h.1, h.2.2.1⟩)
    (C2_parse_failure_returns_before_store demoEnv demoUseCase "forged-1" "10.0.0.1"
      (demoWorld [demoSession 1600000000000]) Error.ErrInvalidToken (by decide)),
   (fun h => ⟨h.1, h.2.2.1⟩)
    (C2_parse_failure_returns_before_store demoEnv demoUseCase "stale-1" "10.0.0.1"
      (demoWorld [demoSession 1600000000000]) Error.ErrTokenExpired (by decide))⟩

/-- C3: when the store holds a session row for `userID`, `GenerateTokens` returns the no-op
outcome `(nil, nil)` as soon as the existence query is answered, never returns a pair, makes
exactly one collaborator call (the existence query: neither the token generator nor
`SaveRefreshSession` is called, no UUID is drawn, the clock is not read) and leaves the table
unchanged, so the number of rows of that user stays what it was. -/
theorem C3_existing_session_is_noop (env : Env) (uc : AuthUseCase) (userID : UUID)
    (userIP : String) (w : World)
    (hrow : ∃ r ∈ w.rows, r.UserID = userID) :
    (env.dbFails w.dbCalls = false →
      (uc.GenerateTokens env userID userIP w).1 = .ok none) ∧
    (∀ pair, (uc.GenerateTokens env userID userIP w).1 ≠ .ok (some pair)) ∧
    (uc.GenerateTokens env userID userIP w).2.trace =
      w.trace ++ [Call.FindSessionByUserID userID] ∧
    (uc.GenerateTokens env userID userIP w).2.uuids = w.uuids ∧
    (uc.GenerateTokens env userID userIP w).2.ticks = w.ticks ∧
    (uc.GenerateTokens env userID userIP w).2.rows = w.rows ∧
    ((uc.GenerateTokens env userID userIP w).2.rows.countP (fun r => r.UserID == userID) =
      w.rows.countP (fun r => r.UserID == userID)) := by
  have hpos := countP_pos_of_row w.rows userID hrow
  cases hdb : env.dbFails w.dbCalls <;>
    simp [AuthUseCase.GenerateTokens, FindSessionByUserID, hdb, hpos, dbCall]

/-- C3 at a store holding one row of `user-1`. -/
theorem C3_existing_session_witness :
    (demoUseCase.GenerateTokens demoEnv "user-1" "10.0.0.9"
      (demoWorld [demoSession 1600000000000])).1 = .ok none ∧
    (demoUseCase.GenerateTokens demoEnv "user-1" "10.0.0.9"
      (demoWorld [demoSession 1600000000000])).2.rows = [demoSession 1600000000000] :=
  (fun h => ⟨h.1 rfl, h.2.2.2.2.2.1⟩)
    (C3_existing_session_is_noop demoEnv demoUseCase "user-1" "10.0.0.9"
      (demoWorld [demoSession 1600000000000]) ⟨demoSession 1600000000000, by decide, rfl⟩)

/-- C4: with no session row for `userID`, an answered existence query and a signer that does
not fail, `GenerateTokens` signs access claims `ca` and refresh claims `cr` into the tokens
of `pair` and builds a row `session` such that: `ca` carries `userID`, `userIP` and the
row's `ID` as `RefreshID`, `cr` carries the same `RefreshID`, the row has the arguments as
`UserID`/`UserIP`, its `ID` is the UUID just drawn, and `CompareRefreshToken` accepts the
refresh token against the row's `TokenHash`. When the insert is not failed by the database
and the UUID is not already a row's key, the pair is returned and the row is in the table.
The row is handed to `SaveRefreshSession` in a world `w4` with the table untouched: if that
call succeeds the pair is returned and the row is stored; whenever it fails `GenerateTokens`
returns that error and no pair, and the table is unchanged. -/
theorem C4_issue_persists_matching_session (env : Env) (uc : AuthUseCase) (userID : UUID)
    (userIP : String) (w : World)
    (hfind : env.dbFails w.dbCalls = false)
    (hnone : ∀ r ∈ w.rows, r.UserID ≠ userID)
    (hsign : SigningTotal env uc.tokenManager.secretKey) :
    ∃ (ca cr : TokenClaims) (pair : TokenPair) (session : RefreshSession) (w4 : World),
      env.SignedString uc.tokenManager.secretKey ca = .ok pair.AccessToken ∧
      env.SignedString uc.tokenManager.secretKey cr = .ok pair.RefreshToken ∧
      ca.UserID = userID ∧ ca.UserIP = userIP ∧
      ca.RefreshID = session.ID ∧ cr.RefreshID = session.ID ∧
      session.UserID = userID ∧ session.UserIP = userIP ∧
      uc.tokenManager.CompareRefreshToken env session.TokenHash pair.RefreshToken = none ∧
      session.ID = env.NewString w.uuids ∧
      (env.dbFails (w.dbCalls + 1) = false → (∀ r ∈ w.rows, r.ID ≠ env.NewString w.uuids) →
        (uc.GenerateTokens env userID userIP w).1 = .ok (some pair) ∧
        session ∈ (uc.GenerateTokens env userID userIP w).2.rows) ∧
      w4.rows = w.rows ∧
      (∀ w5, SaveRefreshSession env session w4 = (none, w5) →
        uc.GenerateTokens env userID userIP w = (.ok (some pair), w5) ∧ session ∈ w5.rows) ∧
      (∀ err w5, SaveRefreshSession env session w4 = (some err, w5) →
        uc.GenerateTokens env userID userIP w = (.error err, w5) ∧ w5.rows = w.rows) := by
  obtain ⟨a, hA⟩ := hsign (issuedAccessClaims env uc userID userIP w)
  obtain ⟨r, hR⟩ := hsign (issuedRefreshClaims env uc w)
  have hgen := GenerateTokens_issue env uc userID userIP w a r hfind hnone hA hR
  refine ⟨issuedAccessClaims env uc userID userIP w, issuedRefreshClaims env uc w, ⟨a, r⟩,
    issuedSession env uc userID userIP w r, worldBeforeSave w userID userIP,
    hA, hR, rfl, rfl, rfl, rfl, rfl, rfl, ?_, rfl, ?_, rfl, ?_, ?_⟩
  · simp [issuedSession, CompareRefreshToken_digest]
  · intro hdb hkey
    have hs := SaveRefreshSession_ok env (issuedSession env uc userID userIP w r)
      (worldBeforeSave w userID userIP) hdb hkey
    rw [hgen, hs]
    simp [worldBeforeSave]
  · intro w5 hs
    rw [hgen, hs]
    refine ⟨rfl, ?_⟩
    rw [SaveRefreshSession_ok_rows env _ (worldBeforeSave w userID userIP) w5 hs]
    simp
  · intro err w5 hs
    rw [hgen, hs]
    exact ⟨rfl, SaveRefreshSession_error_rows env _ (worldBeforeSave w userID userIP) w5 err hs⟩

/-- C4 at `user-2`, who has no row in a store holding one row of `user-1`. -/
theorem C4_issue_witness :
    ∃ (ca cr : TokenClaims) (pair : TokenPair) (session : RefreshSession),
      demoEnv.SignedString "secret" ca = .ok pair.AccessToken ∧
      demoEnv.SignedString "secret" cr = .ok pair.RefreshToken ∧
      ca.UserID = "user-2" ∧ ca.UserIP = "10.0.0.2" ∧
      ca.RefreshID = session.ID ∧ cr.RefreshID = session.ID ∧
      (demoUseCase.GenerateTokens demoEnv "user-2" "10.0.0.2"
        (demoWorld [demoSession 1600000000000])).1 = .ok (some pair) ∧
      session ∈ (demoUseCase.GenerateTokens demoEnv "user-2" "10.0.0.2"
        (demoWorld [demoSession 1600000000000])).2.rows := by
  obtain ⟨ca, cr, pair, session, w4, h1, h2, h3, h4, h5, h6, _, _, _, _, h10, _⟩ :=
    C4_issue_persists_matching_session demoEnv demoUseCase "user-2" "10.0.0.2"
      (demoWorld [demoSession 1600000000000]) rfl (by decide) (demoEnv_signing _)
  exact ⟨ca, cr, pair, session, h1, h2, h3, h4, h5, h6, h10 rfl (by decide)⟩

/-- C5: for a user with no session row, a database that fails no statement, a signer that
does not fail and a JWT library that verifies what it signed, with the two UUIDs drawn
distinct from each other and from the keys in the table, and with the refresh happening
before the token's and the row's expiry: `GenerateTokens` returns a pair and `RefreshTokens`
with its refresh token and the same address returns a second pair; the session id carried
by the second refresh token differs from the one carried by the first; the row of the
first id, present after issuance, is absent afterwards while a row of the new id is
present; and presenting the first refresh token again, from any address, fails. -/
theorem C5_issue_then_refresh_rotates (env : Env) (uc : AuthUseCase) (userID : UUID)
    (userIP : String) (w : World)
    (hdb : ∀ k, env.dbFails k = false)
    (hnone : ∀ r ∈ w.rows, r.UserID ≠ userID)
    (hsign : SigningTotal env uc.tokenManager.secretKey)
    (hcodec : CodecSound env uc.tokenManager.secretKey)
    (hfresh0 : ∀ r ∈ w.rows, r.ID ≠ env.NewString w.uuids)
    (hfresh1 : ∀ r ∈ w.rows, r.ID ≠ env.NewString (w.uuids + 1))
    (hdist : env.NewString (w.uuids + 1) ≠ env.NewString w.uuids)
    (htoken : env.clock (w.ticks + 6) <
      NewNumericDate (env.clock (w.ticks + 2) + uc.tokenManager.refreshTTL))
    (hsession : env.clock (w.ticks + 7) ≤
      env.clock (w.ticks + 4) + uc.tokenManager.refreshTTL) :
    ∃ (pair1 pair2 : TokenPair) (w1 w2 : World) (c1 c2 : TokenClaims),
      uc.GenerateTokens env userID userIP w = (.ok (some pair1), w1) ∧
      uc.RefreshTokens env pair1.RefreshToken userIP w1 = (.ok (some pair2), w2) ∧
      env.ParseUnverified pair1.RefreshToken = some ⟨"HS512", c1⟩ ∧
      env.ParseUnverified pair2.RefreshToken = some ⟨"HS512", c2⟩ ∧
      c2.RefreshID ≠ c1.RefreshID ∧
      (∃ r ∈ w1.rows, r.ID = c1.RefreshID) ∧
      (∀ r ∈ w2.rows, r.ID ≠ c1.RefreshID) ∧
      (∃ r ∈ w2.rows, r.ID = c2.RefreshID ∧ r.UserID = userID) ∧
      (∀ ip, ∃ e, (uc.RefreshTokens env pair1.RefreshToken ip w2).1 = .error e) := by
  -- first issuance
  obtain ⟨a1, hA1⟩ := hsign (issuedAccessClaims env uc userID userIP w)
  obtain ⟨r1, hR1⟩ := hsign (issuedRefreshClaims env uc w)
  have hgen1 := GenerateTokens_issue env uc userID userIP w a1 r1 (hdb _) hnone hA1 hR1
  have hsave1 := SaveRefreshSession_ok env (issuedSession env uc userID userIP w r1)
    (worldBeforeSave w userID userIP) (hdb _) hfresh0
  rw [hsave1] at hgen1
  simp only at hgen1
  obtain ⟨hp1, hv1⟩ := hcodec _ r1 (issuedRefreshClaims_whole env uc w) hR1
  -- the refresh token verifies in the world after issuance
  generalize hw1 : ({ dbCall (worldBeforeSave w userID userIP)
        (Call.SaveRefreshSession (issuedSession env uc userID userIP w r1)) with
      rows := (worldBeforeSave w userID userIP).rows ++
        [issuedSession env uc userID userIP w r1] } : World) = w1 at hgen1
  have hrows1 : w1.rows = w.rows ++ [issuedSession env uc userID userIP w r1] := by
    rw [← hw1]; rfl
  have hticks1 : w1.ticks = w.ticks + 6 := by
    rw [← hw1]; rfl
  have huuid1 : w1.uuids = w.uuids + 1 := by
    rw [← hw1]; rfl
  have hparse := parseTokens_ok env uc.tokenManager r1 w1
    (issuedRefreshClaims env uc w) hp1 hv1
    (by simp [Validate, issuedRefreshClaims, hticks1, htoken])
  have hrot := RefreshTokens_rotate env uc r1 userIP w1 (issuedRefreshClaims env uc w)
    (issuedSession env uc userID userIP w r1) hparse (hdb _)
    (by rw [hrows1]
        exact find_appended_row w.rows (issuedSession env uc userID userIP w r1) hfresh0)
    (by simp [issuedSession, CompareRefreshToken_digest])
    (by simpa [hticks1, issuedSession, Nat.add_assoc] using hsession) (hdb _)
  -- second issuance
  generalize hw2 : worldAfterDelete uc r1 userIP w1 (issuedRefreshClaims env uc w)
    (issuedSession env uc userID userIP w r1) = w2 at hrot
  have hrows2 : w2.rows = w.rows.filter (fun r => r.ID != env.NewString w.uuids) := by
    rw [← hw2]
    simp [worldAfterDelete, hrows1, issuedRefreshClaims, issuedSession, List.filter_append]
  have huuid2 : w2.uuids = w.uuids + 1 := by
    rw [← hw2]; exact huuid1
  have hnone2 : ∀ r ∈ w2.rows, r.UserID ≠ userID := by
    intro r hr
    rw [hrows2] at hr
    exact hnone r (List.mem_filter.mp hr).1
  have hkey2 : ∀ r ∈ w2.rows, r.ID ≠ env.NewString w2.uuids := by
    intro r hr
    rw [hrows2] at hr
    rw [huuid2]
    exact hfresh1 r (List.mem_filter.mp hr).1
  obtain ⟨a2, hA2⟩ := hsign (issuedAccessClaims env uc userID userIP w2)
  obtain ⟨r2, hR2⟩ := hsign (issuedRefreshClaims env uc w2)
  have hgen2 := GenerateTokens_issue env uc userID userIP w2 a2 r2 (hdb _) hnone2 hA2 hR2
  have hsave2 := SaveRefreshSession_ok env (issuedSession env uc userID userIP w2 r2)
    (worldBeforeSave w2 userID userIP) (hdb _) hkey2
  rw [hsave2] at hgen2
  simp only at hgen2
  generalize hw3 : ({ dbCall (worldBeforeSave w2 userID userIP)
        (Call.SaveRefreshSession (issuedSession env uc userID userIP w2 r2)) with
      rows := (worldBeforeSave w2 userID userIP).rows ++
        [issuedSession env uc userID userIP w2 r2] } : World) = w3 at hgen2
  have hrows3 : w3.rows = w2.rows ++ [issuedSession env uc userID userIP w2 r2] := by
    rw [← hw3]; rfl
  obtain ⟨hp2, _⟩ := hcodec _ r2 (issuedRefreshClaims_whole env uc w2) hR2
  have hgone : ∀ r ∈ w2.rows ++ [issuedSession env uc userID userIP w2 r2],
      r.ID ≠ env.NewString w.uuids := by
    intro r hr
    rcases List.mem_append.mp hr with h | h
    · rw [hrows2] at h
      simpa using (List.mem_filter.mp h).2
    · rw [List.mem_singleton.mp h]
      simp only [issuedSession, huuid2]
      exact hdist
  refine ⟨⟨a1, r1⟩, ⟨a2, r2⟩, w1, w3, issuedRefreshClaims env uc w,
    issuedRefreshClaims env uc w2, hgen1, ?_, hp1, hp2, ?_, ?_, ?_, ?_, ?_⟩
  · rw [hrot]
    exact hgen2
  · simp only [issuedRefreshClaims, huuid2]
    exact hdist
  · exact ⟨issuedSession env uc userID userIP w r1, by simp [hrows1], rfl⟩
  · rw [hrows3]
    exact hgone
  · exact ⟨issuedSession env uc userID userIP w2 r2, by simp [hrows3], rfl, rfl⟩
  · intro ip
    exact RefreshTokens_not_found env uc r1 ip w3 _ hp1 (by rw [hrows3]; exact hgone)

/-- C5 at `user-2` in a store holding one row of `user-1`, under the lossless codec. -/
theorem C5_rotation_witness :
    ∃ (pair1 pair2 : TokenPair) (w1 w2 : World) (c1 c2 : TokenClaims),
      demoUseCase.GenerateTokens codecEnv "user-2" "10.0.0.2"
        (demoWorld [demoSession 1600000000000]) = (.ok (some pair1), w1) ∧
      demoUseCase.RefreshTokens codecEnv pair1.RefreshToken "10.0.0.2" w1 =
        (.ok (some pair2), w2) ∧
      codecEnv.ParseUnverified pair1.RefreshToken = some ⟨"HS512", c1⟩ ∧
      codecEnv.ParseUnverified pair2.RefreshToken = some ⟨"HS512", c2⟩ ∧
      c2.RefreshID ≠ c1.RefreshID ∧
      (∀ r ∈ w2.rows, r.ID ≠ c1.RefreshID) := by
  obtain ⟨pair1, pair2, w1, w2, c1, c2, h1, h2, h3, h4, h5, _, h7, _⟩ :=
    C5_issue_then_refresh_rotates codecEnv demoUseCase "user-2" "10.0.0.2"
      (demoWorld [demoSession 1600000000000]) (fun _ => rfl) (by decide)
      (codecEnv_signing _) (codecEnv_sound _) (by decide) (by decide) (by decide)
      (by decide) (by decide)
  exact ⟨pair1, pair2, w1, w2, c1, c2, h1, h2, h3, h4, h5, h7⟩

/-- C6, evaluated where the code departs from it: the token `refresh-1` verifies (it
expires at 2000 s, the clock reads 1500 s), its row `session-1` is found and its digest
matches, and the row expired at 1400 s. `RefreshTokens` fails with the session-expired
error, but the delete it issues is keyed by the token string `refresh-1`, not by the
session id, and the row `session-1` is still in the table when the call returns. -/
theorem C6_expired_session_row_survives :
    (demoUseCase.RefreshTokens demoEnv "refresh-1" "10.0.0.1"
      (demoWorld [demoSession 1400000000000])).1 = .error (.errorf "refresh токен истёк") ∧
    (demoUseCase.RefreshTokens demoEnv "refresh-1" "10.0.0.1"
      (demoWorld [demoSession 1400000000000])).2.trace =
      [Call.GetRefreshSession "session-1", Call.DeleteRefreshSession "refresh-1"] ∧
    (demoUseCase.RefreshTokens demoEnv "refresh-1" "10.0.0.1"
      (demoWorld [demoSession 1400000000000])).2.rows = [demoSession 1400000000000] := by
  decide

/-- C7: for a refresh token that parses (valid, unexpired) to claims `c`, whose session row
is found, whose digest matches and whose row has not expired: called from an address that
differs from the stored one, `RefreshTokens` makes exactly one `SendAlert` call; called from
the stored address it makes none; its result and final world are the same whatever the
mail transport answers (success or failure of any delivery); its outcome (pair, no-op or
failure) is the one it has from the stored address; and on a database that fails no
statement, when the user has no other row and the fresh UUID is not a key of the table, that
outcome is a new pair. -/
theorem C7_address_mismatch_alerts_once (env : Env) (uc : AuthUseCase) (tok userIP : String)
    (w : World) (c : TokenClaims) (session : RefreshSession)
    (hparse : (uc.tokenManager.ParseRefreshToken env tok w).1 = .ok c)
    (hget : env.dbFails w.dbCalls = false)
    (hfound : w.rows.find? (fun r => r.ID == c.RefreshID) = some session)
    (hcmp : uc.tokenManager.CompareRefreshToken env session.TokenHash tok = none)
    (hlive : env.clock (w.ticks + 1) ≤ session.ExpiresAt)
    (hsign : SigningTotal env uc.tokenManager.secretKey) :
    (session.UserIP ≠ userIP →
      alertCount (uc.RefreshTokens env tok userIP w).2 = alertCount w + 1) ∧
    alertCount (uc.RefreshTokens env tok session.UserIP w).2 = alertCount w ∧
    (∀ f, uc.RefreshTokens (withSmtp env f) tok userIP w = uc.RefreshTokens env tok userIP w) ∧
    outcomeOf (uc.RefreshTokens env tok userIP w).1 =
      outcomeOf (uc.RefreshTokens env tok session.UserIP w).1 ∧
    ((∀ k, env.dbFails k = false) →
      (∀ r ∈ w.rows, r.UserID = session.UserID → r.ID = c.RefreshID) →
      (∀ r ∈ w.rows, r.ID ≠ env.NewString w.uuids) →
      ∃ pair, (uc.RefreshTokens env tok userIP w).1 = .ok (some pair)) := by
  have hp := parseTokens_ok_world env uc.tokenManager tok w c hparse
  have hcount := fun ip =>
    RefreshTokens_matched_alertCount env uc tok ip w c session hp hget hfound hcmp hlive
  have hout := fun ip =>
    RefreshTokens_matched_outcome env uc tok ip w c session hp hget hfound hcmp hlive hsign
  refine ⟨?_, ?_, ?_, ?_, ?_⟩
  · intro hip
    rw [hcount userIP, if_pos hip]
  · rw [hcount session.UserIP]
    simp
  · intro f
    exact RefreshTokens_withSmtp env f uc tok userIP w
  · rw [hout userIP, hout session.UserIP]
  · intro hdb hone hfresh
    have hc : ¬ (w.rows.filter (fun r => r.ID != c.RefreshID)).countP
        (fun r => r.UserID == session.UserID) > 0 := by
      have : (w.rows.filter (fun r => r.ID != c.RefreshID)).countP
          (fun r => r.UserID == session.UserID) = 0 := by
        rw [List.countP_eq_zero]
        intro r hr
        have hr' := List.mem_filter.mp hr
        intro hu
        have := hone r hr'.1 (by simpa using hu)
        simp [this] at hr'
      omega
    have hk : (w.rows.filter (fun r => r.ID != c.RefreshID)).any
        (fun r => r.ID == env.NewString w.uuids) = false := by
      rw [List.any_eq_false]
      intro r hr
      simpa using hfresh r (List.mem_filter.mp hr).1
    have := hout userIP
    simp only [hdb, hc, hk, Bool.false_eq_true, if_false, or_self] at this
    cases hres : (uc.RefreshTokens env tok userIP w).1 with
    | error e => rw [hres] at this; simp [outcomeOf] at this
    | ok o =>
      cases o with
      | none => rw [hres] at this; simp [outcomeOf] at this
      | some pair => exact ⟨pair, rfl⟩

/-- C7 at a refresh from `10.0.0.2` of a session stored for `10.0.0.1`, with a mail
transport that fails every delivery. -/
theorem C7_alert_witness :
    alertCount (mailingUseCase.RefreshTokens (withSmtp demoEnv fun _ => true) "refresh-1"
      "10.0.0.2" (demoWorld [demoSession 1600000000000])).2 = 1 ∧
    alertCount (mailingUseCase.RefreshTokens (withSmtp demoEnv fun _ => true) "refresh-1"
      "10.0.0.1" (demoWorld [demoSession 1600000000000])).2 = 0 ∧
    ∃ pair, (mailingUseCase.RefreshTokens (withSmtp demoEnv fun _ => true) "refresh-1"
      "10.0.0.2" (demoWorld [demoSession 1600000000000])).1 = .ok (some pair) :=
  (fun h => ⟨h.1 (by decide), h.2.1, h.2.2.2.2 (fun _ => rfl) (by decide) (by decide)⟩)
    (C7_address_mismatch_alerts_once (withSmtp demoEnv fun _ => true) mailingUseCase
      "refresh-1" "10.0.0.2" (demoWorld [demoSession 1600000000000]) demoClaims
      (demoSession 1600000000000) (by decide) rfl (by decide) (by decide) (by decide)
      (fun c => ⟨"jwt:" ++ c.RefreshID ++ ":" ++ c.UserIP, rfl⟩))

/-- C8 fails on the code: the stored strings `9zz` (a hex digit followed by non-hex text),
` 9` (a leading space) and `00000000000000009` (seventeen hex digits) are not hex encodings
of a 64-bit value in the strict sense, yet `CompareRefreshToken` accepts each of them for the
token `refresh-1`, whose digest is 9; and whatever the digest function and the token, the
stored string `9zz` yields nil or the mismatch error, never the format error. -/
theorem C8_unparsed_tail_is_accepted :
    isHexUint64 "9zz" = false ∧ isHexUint64 " 9" = false ∧
    isHexUint64 "00000000000000009" = false ∧
    demoUseCase.tokenManager.CompareRefreshToken demoEnv "9zz" "refresh-1" = none ∧
    demoUseCase.tokenManager.CompareRefreshToken demoEnv " 9" "refresh-1" = none ∧
    demoUseCase.tokenManager.CompareRefreshToken demoEnv "00000000000000009" "refresh-1" =
      none ∧
    (∀ (env : Env) (tm : TokenManager) (tok : String),
      tm.CompareRefreshToken env "9zz" tok =
        if 9 ≠ Sum64 env tok then some errTokenMismatch else none) := by
  refine ⟨by decide, by decide, by decide, by decide, by decide, by decide, ?_⟩
  intro env tm tok
  have h : parseStoredHash "9zz" = .ok 9 := by decide
  simp only [TokenManager.CompareRefreshToken, h]

/-- C8 as amended: `CompareRefreshToken` returns the invalid-stored-hash-format error (never
nil, never the mismatch error) for every stored string from which `fmt.Sscanf("%x")` scans
no `uint64`, that is, every string whose first `2 ^ 30` runes (all of it, for any shorter
string) are not some spaces other than newline followed by a non-empty run of hex digits
(ending at the end of the input or before a rune that is not a hex digit) of value below
`2 ^ 64`; a stored string of that form is compared by the value `v` of its hex run: nil when
`v` is the token's digest, the mismatch error otherwise. -/
theorem C8_format_error_iff_not_scannable (env : Env) (tm : TokenManager)
    (stored tok : String) :
    ((¬ ∃ v, ScansAs (stored.data.take hugeWid) v) →
      (∃ e, tm.CompareRefreshToken env stored tok = some (errStoredHashFormat e)) ∧
      tm.CompareRefreshToken env stored tok ≠ none ∧
      tm.CompareRefreshToken env stored tok ≠ some errTokenMismatch) ∧
    (∀ v, ScansAs (stored.data.take hugeWid) v →
      tm.CompareRefreshToken env stored tok =
        if v ≠ Sum64 env tok then some errTokenMismatch else none) := by
  constructor
  · intro hno
    cases hp : SscanfHex stored with
    | ok v => exact absurd ⟨v, (SscanfHex_iff stored v).mp hp⟩ hno
    | error e =>
      have hc : tm.CompareRefreshToken env stored tok = some (errStoredHashFormat e) := by
        simp [TokenManager.CompareRefreshToken, parseStoredHash, hp]
      refine ⟨⟨e, hc⟩, ?_, ?_⟩
      · rw [hc]; simp
      · rw [hc]; simp [errStoredHashFormat, errTokenMismatch]
  · intro v hv
    have hp := (SscanfHex_iff stored v).mpr hv
    simp only [TokenManager.CompareRefreshToken, parseStoredHash, hp]

/-- C9 fails on the code: for the token `refresh-1` (digest 9), a found row with the
unparseable digest `zz` makes `CompareRefreshToken` return the format error and a found row
with the digest `8` makes it return the mismatch error, and `RefreshTokens` returns the
same error in both cases. -/
theorem C9_corruption_and_mismatch_same_error :
    demoUseCase.tokenManager.CompareRefreshToken demoEnv "zz" "refresh-1" =
      some (errStoredHashFormat (.lib "expected integer")) ∧
    demoUseCase.tokenManager.CompareRefreshToken demoEnv "8" "refresh-1" =
      some errTokenMismatch ∧
    (demoUseCase.RefreshTokens demoEnv "refresh-1" "10.0.0.1"
      (demoWorld [{ demoSession 1600000000000 with TokenHash := "zz" }])).1 =
      .error (.errorf "неверный refresh токен") ∧
    (demoUseCase.RefreshTokens demoEnv "refresh-1" "10.0.0.1"
      (demoWorld [{ demoSession 1600000000000 with TokenHash := "8" }])).1 =
      .error (.errorf "неверный refresh токен") := by
  decide

/-- C9 as amended: for a token that parses and whose session row is found, whenever
`CompareRefreshToken` returns an error (the format error for an unparseable stored digest or
the mismatch error, which are different errors), `RefreshTokens` returns the one error
`неверный refresh токен` and leaves the table unchanged: the two causes are told apart by
`CompareRefreshToken` but not by `RefreshTokens`. -/
theorem C9_compare_errors_collapse (env : Env) (uc : AuthUseCase) (tok userIP : String)
    (w : World) (c : TokenClaims) (session : RefreshSession) (e : Error)
    (hparse : (uc.tokenManager.ParseRefreshToken env tok w).1 = .ok c)
    (hget : env.dbFails w.dbCalls = false)
    (hfound : w.rows.find? (fun r => r.ID == c.RefreshID) = some session)
    (hcmp : uc.tokenManager.CompareRefreshToken env session.TokenHash tok = some e) :
    (uc.RefreshTokens env tok userIP w).1 = .error (.errorf "неверный refresh токен") ∧
    (uc.RefreshTokens env tok userIP w).2.rows = w.rows ∧
    ((∃ x, e = errStoredHashFormat x) ∨ e = errTokenMismatch) ∧
    (∀ x, errStoredHashFormat x ≠ errTokenMismatch) := by
  have hp := parseTokens_ok_world env uc.tokenManager tok w c hparse
  have hkind : (∃ x, e = errStoredHashFormat x) ∨ e = errTokenMismatch := by
    unfold TokenManager.CompareRefreshToken at hcmp
    split at hcmp
    · left; exact ⟨_, (Option.some.inj hcmp).symm⟩
    · simp only [] at hcmp
      split at hcmp
      · right; exact (Option.some.inj hcmp).symm
      · simp at hcmp
  refine ⟨?_, ?_, hkind, fun x => by simp [errStoredHashFormat, errTokenMismatch]⟩ <;>
  · unfold AuthUseCase.RefreshTokens TokenManager.ParseRefreshToken
    rw [hp]
    simp [GetRefreshSession, hget, hfound, hcmp, tick, dbCall]

/-- C9 as amended, at a found row whose stored digest is the unparseable `zz`. -/
theorem C9_collapse_witness :
    (demoUseCase.RefreshTokens demoEnv "refresh-1" "10.0.0.1"
      (demoWorld [{ demoSession 1600000000000 with TokenHash := "zz" }])).1 =
      .error (.errorf "неверный refresh токен") :=
  (C9_compare_errors_collapse demoEnv demoUseCase "refresh-1" "10.0.0.1"
    (demoWorld [{ demoSession 1600000000000 with TokenHash := "zz" }]) demoClaims
    { demoSession 1600000000000 with TokenHash := "zz" }
    (errStoredHashFormat (.lib "expected integer"))
    (by decide) rfl (by decide) (by decide)).1

/-- C10 fails on the code: with `accessTTL = 0` and `refreshTTL = 500ms` and a clock that
reads 1500 s at every reading, both tokens get `expiresAt = issuedAt = 1500 s`. -/
theorem C10_short_ttl_expiry_equals_issue :
    (shortTTLManager.accessClaims demoEnv "user-1" "10.0.0.1" "session-a"
      (demoWorld [])).1.ExpiresAt = some 1500000000000 ∧
    (shortTTLManager.accessClaims demoEnv "user-1" "10.0.0.1" "session-a"
      (demoWorld [])).1.IssuedAt = some 1500000000000 ∧
    (shortTTLManager.refreshClaims demoEnv "session-a" (demoWorld [])).1.ExpiresAt =
      some 1500000000000 ∧
    (shortTTLManager.refreshClaims demoEnv "session-a" (demoWorld [])).1.IssuedAt =
      some 1500000000000 := by
  decide

/-- C10 as amended: `generateAccessToken` and `generateRefreshToken` sign claims whose
`expiresAt` is strictly greater than `issuedAt` whenever the clock reading taken for
`issuedAt` (the second one) is at least one second before the reading taken for `expiresAt`
plus the TTL, as with a TTL of one second or more and two equal readings; and `expiresAt`
is greater than `issuedAt` only if the second reading is before the first plus the TTL, so
never for a TTL of zero or less under a non-decreasing clock. -/
theorem C10_expiry_after_issue_needs_gap (env : Env) (tm : TokenManager) (userID : UUID)
    (userIP refreshID : String) (w : World) :
    ∃ ca cr ea ia er ir,
      (tm.generateAccessToken env userID userIP refreshID w).1 =
        env.SignedString tm.secretKey ca ∧
      (tm.generateRefreshToken env refreshID w).1 = env.SignedString tm.secretKey cr ∧
      ca.ExpiresAt = some ea ∧ ca.IssuedAt = some ia ∧
      cr.ExpiresAt = some er ∧ cr.IssuedAt = some ir ∧
      (env.clock (w.ticks + 1) + 1000000000 ≤ env.clock w.ticks + tm.accessTTL → ia < ea) ∧
      (ia < ea → env.clock (w.ticks + 1) < env.clock w.ticks + tm.accessTTL) ∧
      (env.clock (w.ticks + 1) + 1000000000 ≤ env.clock w.ticks + tm.refreshTTL → ir < er) ∧
      (ir < er → env.clock (w.ticks + 1) < env.clock w.ticks + tm.refreshTTL) :=
  ⟨(tm.accessClaims env userID userIP refreshID w).1, (tm.refreshClaims env refreshID w).1,
    NewNumericDate (env.clock w.ticks + tm.accessTTL), NewNumericDate (env.clock (w.ticks + 1)),
    NewNumericDate (env.clock w.ticks + tm.refreshTTL), NewNumericDate (env.clock (w.ticks + 1)),
    rfl, rfl, rfl, rfl, rfl, rfl,
    NewNumericDate_lt_of_gap _ _, lt_of_NewNumericDate_lt _ _,
    NewNumericDate_lt_of_gap _ _, lt_of_NewNumericDate_lt _ _⟩

/-- C11: over the sequential store, "at most one session row per user" is an invariant of
the engine: if it holds of the table before a call of `GenerateTokens` or of `RefreshTokens`,
with any arguments, any environment (so any failure of the database, the signer or the mail
transport) and any outcome, it holds of the table after the call. -/
theorem C11_one_row_per_user_is_invariant (env : Env) (uc : AuthUseCase) (w : World)
    (h : OneRowPerUser w.rows) :
    (∀ (userID : UUID) (userIP : String),
      OneRowPerUser (uc.GenerateTokens env userID userIP w).2.rows) ∧
    (∀ refreshToken userIP : String,
      OneRowPerUser (uc.RefreshTokens env refreshToken userIP w).2.rows) :=
  ⟨fun userID userIP => GenerateTokens_OneRowPerUser env uc userID userIP w h,
   fun refreshToken userIP => RefreshTokens_OneRowPerUser env uc refreshToken userIP w h⟩

/-- C11 at an issuance for `user-2` and a rotation of `refresh-1` in a store holding one
row of `user-1`. -/
theorem C11_invariant_witness :
    OneRowPerUser (demoUseCase.GenerateTokens demoEnv "user-2" "10.0.0.2"
      (demoWorld [demoSession 1600000000000])).2.rows ∧
    OneRowPerUser (demoUseCase.RefreshTokens demoEnv "refresh-1" "10.0.0.2"
      (demoWorld [demoSession 1600000000000])).2.rows :=
  (fun h => ⟨h.1 "user-2" "10.0.0.2", h.2 "refresh-1" "10.0.0.2"⟩)
    (C11_one_row_per_user_is_invariant demoEnv demoUseCase
      (demoWorld [demoSession 1600000000000])
      (fun _ => List.countP_le_length _))

/-- C12 fails on the code: the store holds one row of `user-1`, which expired at 1400 s
while the clock reads 1500 s, the database answers and the signer works, and
`GenerateTokens` for `user-1` still returns the no-op outcome after the existence query
alone. -/
theorem C12_expired_row_still_refuses :
    (demoWorld [demoSession 1400000000000]).rows = [demoSession 1400000000000] ∧
    (demoSession 1400000000000).UserID = "user-1" ∧
    (demoSession 1400000000000).ExpiresAt < demoEnv.clock 0 ∧
    demoEnv.dbFails 0 = false ∧
    demoUseCase.GenerateTokens demoEnv "user-1" "10.0.0.1"
        (demoWorld [demoSession 1400000000000]) =
      (.ok none,
        { demoWorld [demoSession 1400000000000] with
          dbCalls := 1, trace := [Call.FindSessionByUserID "user-1"] }) := by
  decide

/-- C12 as amended: once the existence query is answered, `GenerateTokens` returns the no-op
outcome exactly when the store holds a row of `userID`, whatever that row's `ExpiresAt`;
and on a signer that does not fail, an insert the database does not fail and a fresh UUID
that is not a key of the table, it returns a pair exactly when the store holds no row of
`userID`. -/
theorem C12_noop_iff_any_row (env : Env) (uc : AuthUseCase) (userID : UUID)
    (userIP : String) (w : World) (hfind : env.dbFails w.dbCalls = false) :
    ((uc.GenerateTokens env userID userIP w).1 = .ok none ↔
      ∃ r ∈ w.rows, r.UserID = userID) ∧
    (SigningTotal env uc.tokenManager.secretKey → env.dbFails (w.dbCalls + 1) = false →
      (∀ r ∈ w.rows, r.ID ≠ env.NewString w.uuids) →
      ((∃ pair, (uc.GenerateTokens env userID userIP w).1 = .ok (some pair)) ↔
        ∀ r ∈ w.rows, r.UserID ≠ userID)) := by
  refine ⟨GenerateTokens_noop_iff env uc userID userIP w hfind, ?_⟩
  intro hsign hsave hfresh
  have hout := GenerateTokens_outcome env uc userID userIP w hsign
  have hk : w.rows.any (fun r => r.ID == env.NewString w.uuids) = false := by
    rw [List.any_eq_false]
    intro r hr
    simpa using hfresh r hr
  simp only [hfind, hsave, hk, Bool.false_eq_true, if_false, or_self] at hout
  constructor
  · rintro ⟨pair, hp⟩
    rw [hp] at hout
    by_cases hc : w.rows.countP (fun r => r.UserID == userID) > 0
    · rw [if_pos hc] at hout
      simp [outcomeOf] at hout
    · exact no_row_of_countP_zero w.rows userID (by omega)
  · intro hnone
    have hc0 := countP_zero_of_no_row w.rows userID hnone
    rw [hc0] at hout
    simp only [gt_iff_lt, lt_self_iff_false, if_false] at hout
    cases hres : (uc.GenerateTokens env userID userIP w).1 with
    | error e => rw [hres] at hout; simp [outcomeOf] at hout
    | ok o =>
      cases o with
      | none => rw [hres] at hout; simp [outcomeOf] at hout
      | some pair => exact ⟨pair, rfl⟩

/-- C12 as amended, at a store holding one (expired) row of `user-1`: the no-op for
`user-1`, a pair for `user-2`. -/
theorem C12_noop_witness :
    ((demoUseCase.GenerateTokens demoEnv "user-1" "10.0.0.1"
        (demoWorld [demoSession 1400000000000])).1 = .ok none ↔
      ∃ r ∈ (demoWorld [demoSession 1400000000000]).rows, r.UserID = "user-1") ∧
    ∃ pair, (demoUseCase.GenerateTokens demoEnv "user-2" "10.0.0.1"
        (demoWorld [demoSession 1400000000000])).1 = .ok (some pair) :=
  ⟨(C12_noop_iff_any_row demoEnv demoUseCase "user-1" "10.0.0.1"
      (demoWorld [demoSession 1400000000000]) rfl).1,
   ((C12_noop_iff_any_row demoEnv demoUseCase "user-2" "10.0.0.1"
      (demoWorld [demoSession 1400000000000]) rfl).2 (demoEnv_signing _) rfl
        (by decide)).mpr (by decide)⟩

/-- C13: when `GenerateTokens` returns a pair and the clock reading taken for the row's
`ExpiresAt` (the fifth of the call) is not before the one taken for the refresh token's
`expiresAt` (the third), the refresh token is signed from claims `cr` and the table holds
the row `session` of the same session id such that `cr.ExpiresAt` is the third reading plus
`refreshTTL` truncated to whole seconds, `session.ExpiresAt` is the fifth reading plus
`refreshTTL`, the former is not later than the latter, and at every instant `now` at which
the claims validate as unexpired the session-expiry test `now > session.ExpiresAt` is
false. -/
theorem C13_token_expiry_not_after_session_expiry (env : Env) (uc : AuthUseCase)
    (userID : UUID) (userIP : String) (w w1 : World) (pair : TokenPair)
    (hgen : uc.GenerateTokens env userID userIP w = (.ok (some pair), w1))
    (hclock : env.clock (w.ticks + 2) ≤ env.clock (w.ticks + 4)) :
    ∃ (cr : TokenClaims) (session : RefreshSession) (exp : Time),
      env.SignedString uc.tokenManager.secretKey cr = .ok pair.RefreshToken ∧
      session ∈ w1.rows ∧ session.ID = cr.RefreshID ∧
      cr.ExpiresAt = some exp ∧
      exp = NewNumericDate (env.clock (w.ticks + 2) + uc.tokenManager.refreshTTL) ∧
      session.ExpiresAt = env.clock (w.ticks + 4) + uc.tokenManager.refreshTTL ∧
      exp ≤ session.ExpiresAt ∧
      (∀ now : Time, Validate cr now = [] → ¬ now > session.ExpiresAt) := by
  obtain ⟨_, _, _, hR, hrows⟩ := GenerateTokens_pair_inv env uc userID userIP w w1 pair hgen
  have hle : NewNumericDate (env.clock (w.ticks + 2) + uc.tokenManager.refreshTTL) ≤
      env.clock (w.ticks + 4) + uc.tokenManager.refreshTTL :=
    le_trans (NewNumericDate_le _) (add_le_add_right hclock _)
  refine ⟨issuedRefreshClaims env uc w,
    issuedSession env uc userID userIP w pair.RefreshToken, _, hR, ?_, rfl, rfl, rfl, rfl,
    hle, ?_⟩
  · rw [hrows]; simp
  · intro now hv
    have hlt := Validate_nil_lt (issuedRefreshClaims env uc w) now _ rfl hv
    exact not_lt.mpr (le_trans (le_of_lt hlt) hle)

/-- C13 at the issuance for `user-2` under the standing clock. -/
theorem C13_expiry_order_witness :
    ∃ (cr : TokenClaims) (session : RefreshSession) (exp : Time),
      demoEnv.SignedString "secret" cr = .ok "jwt:session-a:" ∧
      session ∈ (demoUseCase.GenerateTokens demoEnv "user-2" "10.0.0.2"
        (demoWorld [demoSession 1600000000000])).2.rows ∧
      session.ID = cr.RefreshID ∧ cr.ExpiresAt = some exp ∧ exp ≤ session.ExpiresAt := by
  obtain ⟨cr, session, exp, h1, h2, h3, h4, _, _, h7, _⟩ :=
    C13_token_expiry_not_after_session_expiry demoEnv demoUseCase "user-2" "10.0.0.2"
      (demoWorld [demoSession 1600000000000])
      (demoUseCase.GenerateTokens demoEnv "user-2" "10.0.0.2"
        (demoWorld [demoSession 1600000000000])).2
      ⟨"jwt:session-a:10.0.0.2", "jwt:session-a:"⟩ (by decide) (by decide)
  exact ⟨cr, session, exp, h1, h2, h3, h4, h7⟩

/-- C14: on a table with at most one row per user, for every refresh token, address and
environment, `RefreshTokens` never returns `(nil, nil)`: whenever its error is nil it
returns a pair. -/
theorem C14_refresh_never_returns_nil_nil (env : Env) (uc : AuthUseCase)
    (refreshToken userIP : String) (w : World) (h : OneRowPerUser w.rows) :
    (uc.RefreshTokens env refreshToken userIP w).1 ≠ .ok none ∧
    ((∀ e, (uc.RefreshTokens env refreshToken userIP w).1 ≠ .error e) →
      ∃ pair, (uc.RefreshTokens env refreshToken userIP w).1 = .ok (some pair)) := by
  have hmain : (uc.RefreshTokens env refreshToken userIP w).1 ≠ .ok none := by
    unfold AuthUseCase.RefreshTokens TokenManager.ParseRefreshToken
    have hpw := parseTokens_world env uc.tokenManager refreshToken w
    rcases hp : uc.tokenManager.parseTokens env refreshToken w with ⟨res, w1⟩
    rw [hp] at hpw
    simp only at hpw
    have h1 : w1.rows = w.rows := by
      rcases hpw with rfl | rfl <;> rfl
    cases res with
    | error e => simp
    | ok c =>
      simp only
      rcases hg : GetRefreshSession env c.RefreshID w1 with ⟨res2, w2⟩
      cases res2 with
      | error e => simp
      | ok o =>
        cases o with
        | none => simp
        | some session =>
          obtain ⟨hfound, h2⟩ := GetRefreshSession_found env c.RefreshID w1 w2 session hg
          rw [h1] at hfound h2
          have hmem : session ∈ w.rows := List.mem_of_find?_eq_some hfound
          have hid : session.ID = c.RefreshID := by
            simpa using List.find?_some hfound
          simp only
          cases hcmp : uc.tokenManager.CompareRefreshToken env session.TokenHash
              refreshToken with
          | some e => simp
          | none =>
            simp only
            split
            · simp
            · have h4 : (if session.UserIP ≠ userIP then
                    (SendAlert env uc.emailSender "Предупреждение: Несоответствие IP"
                      (alertBody refreshToken session.UserIP userIP) (tick w2)).2
                   else tick w2).rows = w.rows := by
                split
                · rw [SendAlert_rows]; exact h2
                · exact h2
              split
              · simp
              · rename_i w5 hd
                have h5 := DeleteRefreshSession_done env c.RefreshID _ w5 hd
                rw [h4] at h5
                apply GenerateTokens_not_noop
                intro r hr hu
                rw [h5] at hr
                obtain ⟨hrmem, hrid⟩ := List.mem_filter.mp hr
                have := OneRowPerUser_unique w.rows h r session hrmem hmem hu
                rw [this, hid] at hrid
                simp at hrid
  refine ⟨hmain, ?_⟩
  intro herr
  cases hres : (uc.RefreshTokens env refreshToken userIP w).1 with
  | error e => exact absurd hres (herr e)
  | ok o =>
    cases o with
    | none => exact absurd hres hmain
    | some pair => exact ⟨pair, rfl⟩

/-- C14 at a rotation of `refresh-1` and at the rejected `forged-1`. -/
theorem C14_refresh_witness :
    (demoUseCase.RefreshTokens demoEnv "refresh-1" "10.0.0.1"
      (demoWorld [demoSession 1600000000000])).1 ≠ .ok none ∧
    (demoUseCase.RefreshTokens demoEnv "forged-1" "10.0.0.1"
      (demoWorld [demoSession 1600000000000])).1 ≠ .ok none :=
  ⟨(C14_refresh_never_returns_nil_nil demoEnv demoUseCase "refresh-1" "10.0.0.1"
      (demoWorld [demoSession 1600000000000]) (fun _ => List.countP_le_length _)).1,
   (C14_refresh_never_returns_nil_nil demoEnv demoUseCase "forged-1" "10.0.0.1"
      (demoWorld [demoSession 1600000000000]) (fun _ => List.countP_le_length _)).1⟩

end Medods
